import Mathlib

/-!
Shallow embedding of the game-room server (`GameServer` in the PartyKit
server module) together with its message validators and the static deck
registry. JavaScript `Map`s are modelled as association lists with
`Map.set` update-in-place semantics, `Set`s as duplicate-free lists in
insertion order, timestamps (`Date.now()`) as natural-number parameters of
the inbound events, and JavaScript numbers occurring in answer values and
scores as rationals. The connection registry (`room.getConnections()`) is
identified with the key set of the `users` map, which the server keeps in
sync on connect and on close. Narrative/insight generation and audio are
external collaborators whose calls only produce outbound traffic and
caches no claim depends on; they are not part of the modelled state.
-/

set_option maxRecDepth 16000

namespace H2H

/-- Association-list lookup, the model of `Map.get`. -/
def mget {α : Type} : List (String × α) → String → Option α
  | [], _ => none
  | (k, v) :: rest, key => if k = key then some v else mget rest key

/-- Association-list update, the model of `Map.set`: replaces the value in
place when the key is present, appends otherwise (JS insertion order). -/
def mset {α : Type} : List (String × α) → String → α → List (String × α)
  | [], key, v => [(key, v)]
  | (k, w) :: rest, key, v =>
    if k = key then (key, v) :: rest else (k, w) :: mset rest key v

/-- Association-list deletion, the model of `Map.delete`. -/
def mdel {α : Type} (m : List (String × α)) (key : String) : List (String × α) :=
  m.filter (fun kv => kv.1 ≠ key)

/-- Set insertion, the model of `Set.add`. -/
def sadd (s : List String) (x : String) : List String :=
  if x ∈ s then s else s ++ [x]

/-- Set removal, the model of `Set.delete`. -/
def sdel (s : List String) (x : String) : List String :=
  s.filter (fun y => y ≠ x)

/-- `GamePhase` from the shared game types, with the LOBBY and INTRO
phases the server dispatches on. -/
inductive GamePhase
  | LOBBY
  | INTRO
  | ANSWERING
  | RESULTS
  | REVEAL
deriving DecidableEq, Repr

/-- The `AnswerValue` discriminated union of the server module. -/
inductive AnswerValue
  | choice (answerId : String)
  | slider (value : ℚ)
deriving DecidableEq, Repr

/-- `AnswerWithMeta`: an answer value plus the metadata stamped on
acceptance. -/
structure AnswerWithMeta where
  value : AnswerValue
  timestamp : ℕ
  timeToAnswer : ℚ
  answerOrder : ℕ
deriving DecidableEq, Repr

/-- `UserState` of the server: assigned name and color plus the
per-question answer map. -/
structure UserState where
  name : String
  color : String
  answers : List (String × AnswerWithMeta)
deriving DecidableEq, Repr

/-- An `Answer` option of a multiple-choice question. -/
structure Answer where
  id : String
  text : String
deriving DecidableEq, Repr

/-- The `Question` discriminated union: multiple choice with options, or a
slider with a discrete snap-position count and labels. -/
inductive Question
  | multipleChoice (id text : String) (answers : List Answer)
  | slider (id text : String) (positions : ℕ) (labels : List String)
deriving DecidableEq, Repr

/-- The stable id of a question. -/
def Question.id : Question → String
  | .multipleChoice i _ _ => i
  | .slider i _ _ _ => i

/-- A `Card` of a static deck (`ButtonCard` or `SliderCard`). -/
inductive Card
  | buttons (cardName question : String) (answers : List String)
  | sliderCard (cardName question : String) (answers : List String)
deriving DecidableEq, Repr

/-- A static `Deck`. -/
structure Deck where
  deckName : String
  cards : List Card
deriving DecidableEq, Repr

/-- The static deck registry of the decks library: a single deck. -/
def decks : List Deck :=
  [{ deckName := "(not yet) friends",
     cards := [
       .buttons "happiness" "What makes you happy in life?"
         ["Time with friends", "Working on my goals", "Good food", "Seeing new places"],
       .sliderCard "focus_strengths_vs_weaknesses" "I tend to focus on my..."
         ["Weaknesses", "Strengths"],
       .buttons "inspiration" "Where do you get inspiration from?"
         ["Other humans", "Time in Nature", "My hobbies", "Beautiful things"],
       .sliderCard "past_vs_future" "I tend to..."
         ["Reflect on the past", "Envision the future"],
       .buttons "fear" "What are you most scared of?"
         ["Public speaking", "Asking someone for a date", "Making big life decisions",
          "Admitting a mistake"]] }]

/-- `getDeck` of the deck service: look a deck up by name. -/
def getDeck (name : String) : Option Deck :=
  decks.find? (fun d => d.deckName = name)

/-- The card-to-question adapter of the deck service. `none` models the
exception thrown for a slider card whose answer count is neither 2 nor 5;
the static deck registry never hits it. -/
def cardToQuestion : Card → Option Question
  | .buttons n q ans =>
      some (.multipleChoice n q
        (ans.enum.map (fun p => { id := "a" ++ toString (p.1 + 1), text := p.2 })))
  | .sliderCard n q ans =>
      match ans with
      | [a0, a1] => some (.slider n q 6 [a0, "", "", "", "", a1])
      | [a0, a1, a2, a3, a4] => some (.slider n q 5 [a0, a1, a2, a3, a4])
      | _ => none

/-- `deckToQuestions` of the deck service, propagating the failure case
of the adapter. -/
def deckToQuestionsOpt (d : Deck) : Option (List Question) :=
  d.cards.mapM cardToQuestion

/-- A per-pair chat session: the sorted participant pair and its start
timestamp. -/
structure ChatSession where
  p1 : String
  p2 : String
  startedAt : ℕ
deriving DecidableEq, Repr

/-- The mutable room state held by the `GameServer` instance. -/
structure Room where
  users : List (String × UserState)
  phase : GamePhase
  currentQuestionIndex : ℕ
  revealRequests : List (String × List String)
  lobbyConfig : Option String
  questions : List Question
  questionStartTimes : List (String × ℕ)
  answerOrderCounters : List (String × ℕ)
  resultsReadyPlayers : List String
  introReadyPlayers : List String
  nudgeCooldowns : List (String × List (String × ℕ))
  hostId : Option String
  activeChats : List (String × ChatSession)
  chatMessageCounts : List (String × List (String × ℕ))
  chatMessageTimestamps : List (String × List (String × ℕ))
deriving DecidableEq, Repr

/-- The freshly constructed room: LOBBY phase, everything empty. -/
def initRoom : Room :=
  { users := [], phase := .LOBBY, currentQuestionIndex := 0, revealRequests := [],
    lobbyConfig := none, questions := [], questionStartTimes := [],
    answerOrderCounters := [], resultsReadyPlayers := [], introReadyPlayers := [],
    nudgeCooldowns := [], hostId := none, activeChats := [],
    chatMessageCounts := [], chatMessageTimestamps := [] }

/-- A connection id is connected iff it is registered in the users map
(the server registers on connect and removes on close). -/
def connected (s : Room) (id : String) : Bool :=
  (mget s.users id).isSome

/-- Outbound message payloads, carrying the fields the claims are about. -/
inductive OutMsg
  | join (id name color : String)
  | left (id : String)
  | sync (selfId : String)
  | cursorOut (id : String) (x y : ℚ)
  | playerAnswered (name questionId : String)
  | phaseChange (phase : GamePhase)
  | questionAdvance (questionIndex : ℕ)
  | resultsFor (viewer : String)
  | readyStatus (readyCount totalPlayers : ℕ)
  | introReadyStatus (readyCount totalPlayers : ℕ)
  | nudgeStatus (targetId : String) (success : Bool) (cooldownRemaining : Option ℕ)
  | nudgeReceived (senderId : String)
  | revealNotification (requesterId : String)
  | revealStatusPending (targetId : String)
  | revealMutual (userId : String)
  | chatStarted (chatId partnerId : String)
  | chatMessage (chatId fromId text : String) (timestamp : ℕ)
  | chatClosed (chatId : String)
deriving DecidableEq, Repr

/-- An outbound delivery: a room-wide broadcast, a broadcast excluding one
connection, or a direct send. -/
inductive Out
  | bcast (m : OutMsg)
  | bcastEx (excluded : String) (m : OutMsg)
  | send (recipient : String) (m : OutMsg)
deriving DecidableEq, Repr

/-- Inbound client messages after JSON decoding (shape only; the value
constraints of the type-guard validators are checked by the dispatcher). -/
inductive ClientMsg
  | cursor (x y : ℚ)
  | answer (questionId answerId : String)
  | sliderAnswer (questionId : String) (value : ℚ)
  | configureLobby (deck : String)
  | startGame
  | toReveal
  | playerReady
  | introReady
  | nudge (targetId : String)
  | revealRequest (targetId : String)
  | chatSend (chatId text : String)
  | chatClose (chatId : String)
deriving DecidableEq, Repr

/-- The inbound events a room processes sequentially. `now` is the value
of `Date.now()` while the event is handled. -/
inductive Event
  | connect (id name color : String)
  | disconnect (id : String) (now : ℕ)
  | msg (sender : String) (m : ClientMsg) (now : ℕ)
deriving DecidableEq, Repr

/-- Drop leading whitespace characters of a character list. -/
def dropWsLeft : List Char → List Char
  | [] => []
  | c :: cs => if c.isWhitespace then dropWsLeft cs else c :: cs

/-- `String.prototype.trim`: strip whitespace from both ends (executable
character-list implementation). -/
def strTrim (s : String) : String :=
  ⟨dropWsLeft ((dropWsLeft s.data.reverse).reverse)⟩

/-- Lexicographic character-list comparison backing the default JS array
sort on strings. -/
def charsLe : List Char → List Char → Bool
  | [], _ => true
  | _ :: _, [] => false
  | c :: cs, d :: ds =>
    if c.toNat < d.toNat then true
    else if d.toNat < c.toNat then false
    else charsLe cs ds

/-- Lexicographic string order (executable). -/
def strLe (a b : String) : Bool :=
  charsLe a.data b.data

/-- The sorted pair `[u1, u2].sort()`. -/
def sortPair (a b : String) : String × String :=
  if strLe a b then (a, b) else (b, a)

/-- `getChatId`: deterministic chat id from the sorted participant pair. -/
def getChatId (userId1 userId2 : String) : String :=
  (sortPair userId1 userId2).1 ++ "-" ++ (sortPair userId1 userId2).2

/-- The id-string bound (`MAX_ID_LENGTH`) shared by the validators. -/
def validId (x : String) : Bool :=
  0 < x.length && x.length ≤ 64

/-- Chat-id bound of the chat validators (`MAX_ID_LENGTH * 2 + 1`). -/
def validChatId (x : String) : Bool :=
  0 < x.length && x.length ≤ 129

/-- Text constraint of `isValidChatMessageSend`: nonempty, at most 500
characters, and nonempty after trimming. -/
def validChatText (x : String) : Bool :=
  0 < x.length && x.length ≤ 500 && 0 < (strTrim x).length

/-! ## Compatibility scorer -/

/-- The position count of the first question found with the given id, when
that question is a slider (`questions.find` followed by the
`type === SLIDER` check of `calculateCompatibility`). -/
def sliderPositionsOf (questions : List Question) (qid : String) : Option ℕ :=
  match questions.find? (fun q => q.id = qid) with
  | some (.slider _ _ positions _) => some positions
  | _ => none

/-- Per-question contribution of the loop body of `calculateCompatibility`:
exact match for choices; position-normalised linear proximity for sliders,
with an exact-match fallback for a single-position slider and a 0-100
range fallback when the question is unknown or not a slider. Mismatched
answer shapes contribute 0. -/
def answerContribution (questions : List Question) (qid : String) :
    AnswerValue → AnswerValue → ℚ
  | .choice x, .choice y => if x = y then 1 else 0
  | .slider a, .slider b =>
    match sliderPositionsOf questions qid with
    | some positions =>
      let maxPosition : ℕ := positions - 1
      if 0 < maxPosition then
        1 - |a / (maxPosition : ℚ) - b / (maxPosition : ℚ)|
      else if a = b then 1 else 0
    | none => 1 - |a - b| / 100
  | _, _ => 0

/-- The jointly-answered questions visited by `calculateCompatibility`:
entries of the answer map of A whose question id is also present in that
of B, in the insertion order of A, paired with both answer values. -/
def jointAnswers (aAns bAns : List (String × AnswerWithMeta)) :
    List (String × AnswerValue × AnswerValue) :=
  aAns.filterMap (fun kv => (mget bAns kv.1).map (fun mB => (kv.1, kv.2.value, mB.value)))

/-- `calculateCompatibility`: 0 when A has no answers; otherwise the sum of
the per-question contributions over jointly-answered questions divided by
their count, and 0 when that count is 0. -/
def calculateCompatibility (questions : List Question) (uA uB : UserState) : ℚ :=
  if uA.answers.isEmpty then 0
  else
    let joint := jointAnswers uA.answers uB.answers
    let total := (joint.map (fun j => answerContribution questions j.1 j.2.1 j.2.2)).sum
    if 0 < joint.length then total / (joint.length : ℚ) else 0

/-- Modelled from the spec (refinement comparison for the scoring claim):
the claimed per-question contribution — choice answers contribute 1 on an
exact answer-id match and 0 otherwise; slider answers on a question with
P > 1 positions contribute `1 - |a/(P-1) - b/(P-1)|`. -/
def specContribution (questions : List Question)
    (j : String × AnswerValue × AnswerValue) : ℚ :=
  match j.2.1, j.2.2 with
  | .choice x, .choice y => if x = y then 1 else 0
  | .slider a, .slider b =>
    match sliderPositionsOf questions j.1 with
    | some positions =>
      1 - |a / ((positions - 1 : ℕ) : ℚ) - b / ((positions - 1 : ℕ) : ℚ)|
    | none => 0
  | _, _ => 0

/-- A jointly-answered entry has one of the two shapes the claimed scoring
formula covers: two choice answers, or two slider answers on a slider
question with more than one position. -/
def WellTypedJoint (questions : List Question)
    (j : String × AnswerValue × AnswerValue) : Prop :=
  (∃ x y, j.2.1 = .choice x ∧ j.2.2 = .choice y) ∨
  (∃ a b positions, j.2.1 = .slider a ∧ j.2.2 = .slider b ∧
    sliderPositionsOf questions j.1 = some positions ∧ 1 < positions)

/-! ## Reveal graph and chat sessions -/

/-- Whether the directed reveal edge `a → b` is recorded. -/
def hasEdge (g : List (String × List String)) (a b : String) : Bool :=
  match mget g a with
  | some ts => b ∈ ts
  | none => false

/-- Record the directed reveal edge `a → b` (create the target set when
missing, then add). -/
def addEdge (g : List (String × List String)) (a b : String) :
    List (String × List String) :=
  match mget g a with
  | some ts => mset g a (sadd ts b)
  | none => mset g a (sadd [] b)

/-- `isMutualReveal`: both directed edges exist. -/
def isMutualReveal (s : Room) (userA userB : String) : Bool :=
  hasEdge s.revealRequests userA userB && hasEdge s.revealRequests userB userA

/-- `createChatSession`: store the session under the chat id with the
sorted participant pair, and initialise both rate-limiting maps. -/
def createChatSession (chatId userId1 userId2 : String) (now : ℕ) (s : Room) : Room :=
  { s with
    activeChats := mset s.activeChats chatId
      { p1 := (sortPair userId1 userId2).1, p2 := (sortPair userId1 userId2).2,
        startedAt := now },
    chatMessageCounts := mset s.chatMessageCounts chatId [],
    chatMessageTimestamps := mset s.chatMessageTimestamps chatId [] }

/-- `closeChatSession`: delete the session and its rate-limiting maps. -/
def closeChatSession (chatId : String) (s : Room) : Room :=
  { s with
    activeChats := mdel s.activeChats chatId,
    chatMessageCounts := mdel s.chatMessageCounts chatId,
    chatMessageTimestamps := mdel s.chatMessageTimestamps chatId }

/-- Whether a chat session is currently stored for the id. -/
def hasChat (s : Room) (chatId : String) : Bool :=
  (mget s.activeChats chatId).isSome

/-- The in-window message count stored for a participant of a chat. -/
def chatCountOf (s : Room) (chatId p : String) : ℕ :=
  (mget ((mget s.chatMessageCounts chatId).getD []) p).getD 0

/-- The last-message timestamp stored for a participant of a chat. -/
def storedLastTs (s : Room) (chatId p : String) : ℕ :=
  (mget ((mget s.chatMessageTimestamps chatId).getD []) p).getD 0

/-! ## Phase transitions and quorum checks -/

/-- `transitionToReveal`: RESULTS → REVEAL, guarded. -/
def transitionToReveal (s : Room) : Room × List Out :=
  if s.phase ≠ .RESULTS then (s, [])
  else ({ s with phase := .REVEAL }, [Out.bcast (.phaseChange .REVEAL)])

/-- `broadcastReadyStatus`: broadcast the results-ready tally, then
auto-advance when the ready percentage reaches 75. The floating-point test
`(ready / total) * 100 >= 75` (with `0` when `total = 0`) is replicated as
the exact comparison `3 * total ≤ 4 * ready` guarded by `0 < total`. -/
def broadcastReadyStatus (s : Room) : Room × List Out :=
  let tally := Out.bcast (.readyStatus s.resultsReadyPlayers.length s.users.length)
  if 0 < s.users.length ∧ 3 * s.users.length ≤ 4 * s.resultsReadyPlayers.length ∧
      s.phase = .RESULTS then
    let r := transitionToReveal s
    (r.1, tally :: r.2)
  else (s, [tally])

/-- `transitionToAnswering`: enter ANSWERING at question index 0, clear the
intro-ready set, and stamp the start time and order counter of the first
question before broadcasting the phase change. -/
def transitionToAnswering (now : ℕ) (s : Room) : Room × List Out :=
  let s1 := { s with phase := .ANSWERING, currentQuestionIndex := 0, introReadyPlayers := [] }
  let s2 :=
    match s1.questions.get? 0 with
    | some q =>
      { s1 with questionStartTimes := mset s1.questionStartTimes q.id now,
                answerOrderCounters := mset s1.answerOrderCounters q.id 0 }
    | none => s1
  (s2, [Out.bcast (.phaseChange .ANSWERING)])

/-- `broadcastIntroReadyStatus`: broadcast the intro-ready tally, then
auto-advance to ANSWERING when the 75% threshold is met while in INTRO
(same exact replication of the percentage test as for results). -/
def broadcastIntroReadyStatus (now : ℕ) (s : Room) : Room × List Out :=
  let tally := Out.bcast (.introReadyStatus s.introReadyPlayers.length s.users.length)
  if 0 < s.users.length ∧ 3 * s.users.length ≤ 4 * s.introReadyPlayers.length ∧
      s.phase = .INTRO then
    let r := transitionToAnswering now s
    (r.1, tally :: r.2)
  else (s, [tally])

/-- `checkAllAnsweredCurrentQuestion`: at least two connections, the index
in bounds, and every connected user holding an answer for the current
question. -/
def checkAllAnsweredCurrentQuestion (s : Room) : Bool :=
  2 ≤ s.users.length &&
  s.currentQuestionIndex < s.questions.length &&
  (match s.questions.get? s.currentQuestionIndex with
   | some q => s.users.all (fun kv => (mget kv.2.answers q.id).isSome)
   | none => false)

/-- `transitionToResults`: ANSWERING → RESULTS, clear the ready set,
broadcast the phase change, push personalised results to every connection
and broadcast the initial ready tally. The narrative and connection-insight
generation triggered here are external asynchronous collaborators and are
not part of the modelled state. -/
def transitionToResults (s : Room) : Room × List Out :=
  if s.phase ≠ .ANSWERING then (s, [])
  else
    let s1 := { s with phase := .RESULTS, resultsReadyPlayers := [] }
    let resOuts := s1.users.map (fun kv => Out.send kv.1 (.resultsFor kv.1))
    let r := broadcastReadyStatus s1
    (r.1, Out.bcast (.phaseChange .RESULTS) :: resOuts ++ r.2)

/-- `advanceToNextQuestion`: bump the index; past the last question go to
RESULTS, otherwise stamp the start time and order counter of the new question
and broadcast the advance. -/
def advanceToNextQuestion (now : ℕ) (s : Room) : Room × List Out :=
  let s1 := { s with currentQuestionIndex := s.currentQuestionIndex + 1 }
  if s1.questions.length ≤ s1.currentQuestionIndex then transitionToResults s1
  else
    match s1.questions.get? s1.currentQuestionIndex with
    | some q =>
      ({ s1 with questionStartTimes := mset s1.questionStartTimes q.id now,
                 answerOrderCounters := mset s1.answerOrderCounters q.id 0 },
       [Out.bcast (.questionAdvance s1.currentQuestionIndex)])
    | none => (s1, [Out.bcast (.questionAdvance s1.currentQuestionIndex)])

/-- `clearGameState`: drop timing, counters, ready sets and all stored
answers, and reset the question index (the narrative cache it also clears
is unmodelled external-collaborator state). -/
def clearGameState (s : Room) : Room :=
  { s with questionStartTimes := [], answerOrderCounters := [],
           resultsReadyPlayers := [], introReadyPlayers := [],
           users := s.users.map (fun kv => (kv.1, { kv.2 with answers := [] })),
           currentQuestionIndex := 0 }

/-! ## Event handlers -/

/-- `onConnect`: register the participant (name and color are inputs of the
event, standing for the random name draw and the unique-color allocation),
broadcast the join to the others and send the sync payload; in RESULTS or
REVEAL also push the personalised results. -/
def handleConnect (cid name color : String) (s : Room) : Room × List Out :=
  let s1 := { s with users := mset s.users cid { name := name, color := color, answers := [] } }
  let resOuts :=
    if s1.phase = .RESULTS ∨ s1.phase = .REVEAL then [Out.send cid (.resultsFor cid)] else []
  (s1, Out.bcastEx cid (.join cid name color) :: Out.send cid (.sync cid) :: resOuts)

/-- Cursor pass-through broadcast for registered senders. -/
def handleCursor (sender : String) (x y : ℚ) (s : Room) : Room × List Out :=
  match mget s.users sender with
  | some _ => (s, [Out.bcastEx sender (.cursorOut sender x y)])
  | none => (s, [])

/-- The choice-answer branch of `onMessage`: first answer wins; on
acceptance stamp metadata (question start time defaulting to now, `|| now`
treating a stored 0 as missing), bump the per-question order counter,
broadcast `PLAYER_ANSWERED`, and run the all-answered auto-advance check. -/
def handleAnswer (sender questionId answerId : String) (now : ℕ) (s : Room) :
    Room × List Out :=
  if ¬ (validId questionId && validId answerId) then (s, [])
  else if s.phase ≠ .ANSWERING then (s, [])
  else
    match mget s.users sender with
    | none => (s, [])
    | some player =>
      if (mget player.answers questionId).isSome then (s, [])
      else
        let questionStartTime :=
          match mget s.questionStartTimes questionId with
          | some t => if t = 0 then now else t
          | none => now
        let timeToAnswer : ℚ := ((now - questionStartTime : ℕ) : ℚ) / 1000
        let answerOrder := (match mget s.answerOrderCounters questionId with
          | some c => c
          | none => 0) + 1
        let s1 := { s with
          answerOrderCounters := mset s.answerOrderCounters questionId answerOrder,
          users := mset s.users sender { player with
            answers := mset player.answers questionId
              { value := .choice answerId, timestamp := now,
                timeToAnswer := timeToAnswer, answerOrder := answerOrder } } }
        let outs1 := [Out.bcast (.playerAnswered player.name questionId)]
        if checkAllAnsweredCurrentQuestion s1 then
          let r := advanceToNextQuestion now s1
          (r.1, outs1 ++ r.2)
        else (s1, outs1)

/-- The slider-answer branch of `onMessage`: identical flow with the
value-range validator (`0 ≤ value ≤ 100`). -/
def handleSliderAnswer (sender questionId : String) (value : ℚ) (now : ℕ) (s : Room) :
    Room × List Out :=
  if ¬ (validId questionId && decide (0 ≤ value) && decide (value ≤ 100)) then (s, [])
  else if s.phase ≠ .ANSWERING then (s, [])
  else
    match mget s.users sender with
    | none => (s, [])
    | some player =>
      if (mget player.answers questionId).isSome then (s, [])
      else
        let questionStartTime :=
          match mget s.questionStartTimes questionId with
          | some t => if t = 0 then now else t
          | none => now
        let timeToAnswer : ℚ := ((now - questionStartTime : ℕ) : ℚ) / 1000
        let answerOrder := (match mget s.answerOrderCounters questionId with
          | some c => c
          | none => 0) + 1
        let s1 := { s with
          answerOrderCounters := mset s.answerOrderCounters questionId answerOrder,
          users := mset s.users sender { player with
            answers := mset player.answers questionId
              { value := .slider value, timestamp := now,
                timeToAnswer := timeToAnswer, answerOrder := answerOrder } } }
        let outs1 := [Out.bcast (.playerAnswered player.name questionId)]
        if checkAllAnsweredCurrentQuestion s1 then
          let r := advanceToNextQuestion now s1
          (r.1, outs1 ++ r.2)
        else (s1, outs1)

/-- The configure-lobby branch of `onMessage` together with
`handleConfigureLobby`: only in LOBBY while unconfigured; the sender
becomes host, previous game state is cleared, and the deck is loaded — an
unknown deck leaves the config null and sends nothing, a known deck
installs the questions and syncs every connection. -/
def handleConfigureLobbyMsg (sender deck : String) (s : Room) : Room × List Out :=
  if ¬ validId deck then (s, [])
  else if s.phase ≠ .LOBBY then (s, [])
  else if s.lobbyConfig.isSome then (s, [])
  else
    let s1 := clearGameState { s with hostId := some sender }
    match (getDeck deck).bind deckToQuestionsOpt with
    | some qs =>
      let s2 := { s1 with questions := qs, lobbyConfig := some deck }
      (s2, s2.users.map (fun kv => Out.send kv.1 (.sync kv.1)))
    | none => ({ s1 with lobbyConfig := none, questions := [] }, [])

/-- The `START_GAME` branch of `onMessage`: host-only, needs at least two
connections and a configuration; clears previous game state, enters INTRO
and broadcasts the initial intro-ready tally. -/
def handleStartGame (sender : String) (now : ℕ) (s : Room) : Room × List Out :=
  if s.phase ≠ .LOBBY then (s, [])
  else if s.hostId ≠ some sender then (s, [])
  else if s.users.length < 2 then (s, [])
  else if s.lobbyConfig.isNone then (s, [])
  else
    let s1 := { clearGameState s with phase := .INTRO, introReadyPlayers := [] }
    let r := broadcastIntroReadyStatus now s1
    (r.1, Out.bcast (.phaseChange .INTRO) :: r.2)

/-- The `TRANSITION_TO_REVEAL` branch of `onMessage`. -/
def handleToReveal (s : Room) : Room × List Out :=
  if s.phase = .RESULTS then transitionToReveal s else (s, [])

/-- The `PLAYER_READY` branch of `onMessage`. -/
def handlePlayerReady (sender : String) (s : Room) : Room × List Out :=
  if s.phase = .RESULTS then
    broadcastReadyStatus { s with resultsReadyPlayers := sadd s.resultsReadyPlayers sender }
  else (s, [])

/-- The `INTRO_READY` branch of `onMessage`. -/
def handleIntroReady (sender : String) (now : ℕ) (s : Room) : Room × List Out :=
  if s.phase = .INTRO then
    broadcastIntroReadyStatus now
      { s with introReadyPlayers := sadd s.introReadyPlayers sender }
  else (s, [])

/-- The nudge branch of `onMessage`: reject self-nudges and unknown
endpoints, enforce the per-(sender,target) 10-second cooldown, otherwise
stamp the cooldown, notify the target and confirm to the sender. -/
def handleNudge (sender targetId : String) (now : ℕ) (s : Room) : Room × List Out :=
  if ¬ validId targetId then (s, [])
  else if sender = targetId then
    (s, [Out.send sender (.nudgeStatus targetId false none)])
  else
    match mget s.users targetId, mget s.users sender with
    | some _, some _ =>
      let senderCooldowns := (mget s.nudgeCooldowns sender).getD []
      let lastNudge := (mget senderCooldowns targetId).getD 0
      let elapsed := now - lastNudge
      if elapsed < 10000 then
        (s, [Out.send sender (.nudgeStatus targetId false (some ((10000 - elapsed + 999) / 1000)))])
      else
        let s1 := { s with
          nudgeCooldowns := mset s.nudgeCooldowns sender (mset senderCooldowns targetId now) }
        let notify :=
          if connected s targetId then [Out.send targetId (.nudgeReceived sender)] else []
        (s1, notify ++ [Out.send sender (.nudgeStatus targetId true none)])
    | _, _ => (s, [Out.send sender (.nudgeStatus targetId false none)])

/-- The reveal-request branch of `onMessage`: only in REVEAL between known
participants; record the edge, notify the target, then on mutuality create
the chat session unless one already exists for the pair (the idempotency
guard), pushing the mutual-reveal and chat-started messages; otherwise
report pending to the requester. -/
def handleRevealRequest (sender targetId : String) (now : ℕ) (s : Room) :
    Room × List Out :=
  if ¬ validId targetId then (s, [])
  else if s.phase ≠ .REVEAL then (s, [])
  else
    match mget s.users sender, mget s.users targetId with
    | some _, some _ =>
      let s1 := { s with revealRequests := addEdge s.revealRequests sender targetId }
      let notif :=
        if connected s1 targetId then [Out.send targetId (.revealNotification sender)] else []
      if isMutualReveal s1 sender targetId then
        let chatId := getChatId sender targetId
        if (mget s1.activeChats chatId).isSome then (s1, notif)
        else
          let mutualOuts := Out.send sender (.revealMutual targetId) ::
            (if connected s1 targetId then [Out.send targetId (.revealMutual sender)] else [])
          let s2 := createChatSession chatId sender targetId now s1
          let startOuts := Out.send sender (.chatStarted chatId targetId) ::
            (if connected s1 targetId then [Out.send targetId (.chatStarted chatId sender)] else [])
          (s2, notif ++ mutualOuts ++ startOuts)
      else (s1, notif ++ [Out.send sender (.revealStatusPending targetId)])
    | _, _ => (s, [])

/-- The chat-send branch of `onMessage`: session and membership checks,
then the sliding-window rate limit (at most 10 messages while each gap
since the stored last-message timestamp stays under 10 seconds; the
counter restarts at 1 on an expired window), and delivery of the trimmed
text to the partner when the sender is registered and the partner
connected (the rate-limit bookkeeping has already been written by then). -/
def handleChatSend (sender chatId text : String) (now : ℕ) (s : Room) : Room × List Out :=
  if ¬ (validChatId chatId && validChatText text) then (s, [])
  else
    match mget s.activeChats chatId with
    | none => (s, [])
    | some chatSession =>
      if chatSession.p1 ≠ sender ∧ chatSession.p2 ≠ sender then (s, [])
      else
        let userCounts := (mget s.chatMessageCounts chatId).getD []
        let userTimestamps := (mget s.chatMessageTimestamps chatId).getD []
        let userCount := (mget userCounts sender).getD 0
        let lastTimestamp := (mget userTimestamps sender).getD 0
        if now - lastTimestamp < 10000 ∧ 10 ≤ userCount then (s, [])
        else
          let newCount := if now - lastTimestamp < 10000 then userCount + 1 else 1
          let s1 := { s with
            chatMessageCounts := mset s.chatMessageCounts chatId (mset userCounts sender newCount),
            chatMessageTimestamps :=
              mset s.chatMessageTimestamps chatId (mset userTimestamps sender now) }
          let partnerId := if chatSession.p1 = sender then chatSession.p2 else chatSession.p1
          match mget s.users sender, connected s partnerId with
          | some _, true =>
            (s1, [Out.send partnerId (.chatMessage chatId sender (strTrim text) now)])
          | _, _ => (s1, [])

/-- The chat-close branch of `onMessage`: either participant closes, both
sides are notified when connected, and all session state is deleted. -/
def handleChatClose (sender chatId : String) (s : Room) : Room × List Out :=
  if ¬ validChatId chatId then (s, [])
  else
    match mget s.activeChats chatId with
    | none => (s, [])
    | some chatSession =>
      if chatSession.p1 ≠ sender ∧ chatSession.p2 ≠ sender then (s, [])
      else
        let outs :=
          (if connected s chatSession.p1 then [Out.send chatSession.p1 (.chatClosed chatId)] else []) ++
          (if connected s chatSession.p2 then [Out.send chatSession.p2 (.chatClosed chatId)] else [])
        (closeChatSession chatId s, outs)

/-- `leave` (from `onClose`/`onError`): close the chats of the leaver with
partner notification, drop the user, their reveal edges (outgoing map and
incoming set entries) and nudge cooldowns, update the results-ready set
(re-broadcasting the tally in RESULTS when the leaver was ready, which can
itself reach the 75% threshold), broadcast the leave, and in ANSWERING
re-run the all-answered advancement check. -/
def handleLeave (uid : String) (now : ℕ) (s : Room) : Room × List Out :=
  let involved := s.activeChats.filter (fun kv => kv.2.p1 = uid || kv.2.p2 = uid)
  let involvedIds := involved.map Prod.fst
  let closeOuts := involved.filterMap (fun kv =>
    let partnerId := if kv.2.p1 = uid then kv.2.p2 else kv.2.p1
    if connected s partnerId then some (Out.send partnerId (.chatClosed kv.1)) else none)
  let wasReady := uid ∈ s.resultsReadyPlayers
  let s1 := { s with
    activeChats := s.activeChats.filter (fun kv => ¬ (kv.2.p1 = uid || kv.2.p2 = uid)),
    chatMessageCounts := s.chatMessageCounts.filter (fun kv => kv.1 ∉ involvedIds),
    chatMessageTimestamps := s.chatMessageTimestamps.filter (fun kv => kv.1 ∉ involvedIds),
    users := mdel s.users uid,
    revealRequests := (mdel s.revealRequests uid).map (fun kv => (kv.1, sdel kv.2 uid)),
    nudgeCooldowns := mdel s.nudgeCooldowns uid,
    resultsReadyPlayers := sdel s.resultsReadyPlayers uid }
  let r2 := if wasReady ∧ s1.phase = .RESULTS then broadcastReadyStatus s1 else (s1, [])
  let outsLeave := closeOuts ++ r2.2 ++ [Out.bcast (.left uid)]
  if r2.1.phase = .ANSWERING ∧ checkAllAnsweredCurrentQuestion r2.1 then
    let r3 := advanceToNextQuestion now r2.1
    (r3.1, outsLeave ++ r3.2)
  else (r2.1, outsLeave)

/-- The sequential event processor: `onConnect`, `onClose`/`onError`, and
the `onMessage` dispatcher over the validated message shapes. -/
def step (e : Event) (s : Room) : Room × List Out :=
  match e with
  | .connect cid name color => handleConnect cid name color s
  | .disconnect uid now => handleLeave uid now s
  | .msg sender m now =>
    match m with
    | .cursor x y => handleCursor sender x y s
    | .answer questionId answerId => handleAnswer sender questionId answerId now s
    | .sliderAnswer questionId value => handleSliderAnswer sender questionId value now s
    | .configureLobby deck => handleConfigureLobbyMsg sender deck s
    | .startGame => handleStartGame sender now s
    | .toReveal => handleToReveal s
    | .playerReady => handlePlayerReady sender s
    | .introReady => handleIntroReady sender now s
    | .nudge targetId => handleNudge sender targetId now s
    | .revealRequest targetId => handleRevealRequest sender targetId now s
    | .chatSend chatId text => handleChatSend sender chatId text now s
    | .chatClose chatId => handleChatClose sender chatId s

/-- Run a list of events, accumulating every outbound delivery. -/
def runOut : List Event → Room → Room × List Out
  | [], s => (s, [])
  | e :: rest, s =>
    let r := step e s
    let r2 := runOut rest r.1
    (r2.1, r.2 ++ r2.2)

/-- The state after running a list of events. -/
def runEvents (evs : List Event) (s : Room) : Room :=
  (runOut evs s).1

/-- The phases observed strictly after the initial state. -/
def phaseTraceAux : List Event → Room → List GamePhase
  | [], _ => []
  | e :: rest, s => (step e s).1.phase :: phaseTraceAux rest (step e s).1

/-- The observed phase sequence of a run, starting with the initial
phase of the initial state. -/
def phaseTrace (evs : List Event) (s : Room) : List GamePhase :=
  s.phase :: phaseTraceAux evs s

/-- How many steps of a run create a chat session for the given id (its
stored session going from absent to present across one event). -/
def chatCreations : List Event → Room → String → ℕ
  | [], _, _ => 0
  | e :: rest, s, chatId =>
    (if hasChat s chatId = false ∧ hasChat (step e s).1 chatId = true then 1 else 0) +
      chatCreations rest (step e s).1 chatId

/-- The number of chat-message deliveries addressed to a participant. -/
def deliveriesTo (target : String) (outs : List Out) : ℕ :=
  (outs.filter (fun o =>
    match o with
    | .send r (.chatMessage _ _ _ _) => r = target
    | _ => false)).length

/-- The canonical phase chain starting at a given phase. -/
def phaseChainFrom : GamePhase → List GamePhase
  | .LOBBY => [.LOBBY, .INTRO, .ANSWERING, .RESULTS, .REVEAL]
  | .INTRO => [.INTRO, .ANSWERING, .RESULTS, .REVEAL]
  | .ANSWERING => [.ANSWERING, .RESULTS, .REVEAL]
  | .RESULTS => [.RESULTS, .REVEAL]
  | .REVEAL => [.REVEAL]

/-- One event keeps the phase or moves it forward by exactly one stage. -/
def PhaseStep (p q : GamePhase) : Prop :=
  q = p ∨ (p = .LOBBY ∧ q = .INTRO) ∨ (p = .INTRO ∧ q = .ANSWERING) ∨
    (p = .ANSWERING ∧ q = .RESULTS) ∨ (p = .RESULTS ∧ q = .REVEAL)

/-- An event that is a reveal request from a to b or from b to a. -/
def RevealBetween (a b : String) (e : Event) : Prop :=
  (∃ t, e = .msg a (.revealRequest b) t) ∨ (∃ t, e = .msg b (.revealRequest a) t)

/-! ## Concrete fixtures used by counterexamples and witnesses -/

/-- Two participants reach REVEAL with a full game, mutually reveal (one
chat created), close the chat, then one side repeats its reveal request. -/
def c3trace : List Event :=
  [.connect "a" "Swift Panda" "#F89A8A", .connect "b" "Cozy Fox" "#F9AE77",
   .msg "a" (.configureLobby "(not yet) friends") 0,
   .msg "a" .startGame 0,
   .msg "a" .introReady 0,
   .msg "b" .introReady 0,
   .msg "a" (.answer "happiness" "a1") 0, .msg "b" (.answer "happiness" "a1") 0,
   .msg "a" (.sliderAnswer "focus_strengths_vs_weaknesses" 1) 0,
   .msg "b" (.sliderAnswer "focus_strengths_vs_weaknesses" 2) 0,
   .msg "a" (.answer "inspiration" "a1") 0, .msg "b" (.answer "inspiration" "a2") 0,
   .msg "a" (.sliderAnswer "past_vs_future" 0) 0, .msg "b" (.sliderAnswer "past_vs_future" 5) 0,
   .msg "a" (.answer "fear" "a1") 0, .msg "b" (.answer "fear" "a1") 0,
   .msg "a" .toReveal 0,
   .msg "a" (.revealRequest "b") 0,
   .msg "b" (.revealRequest "a") 0,
   .msg "a" (.chatClose "a-b") 0,
   .msg "a" (.revealRequest "b") 1]

/-- A REVEAL-phase room with two participants whose reveal edges are
already mutual but whose chat has been closed. -/
def c3room : Room :=
  { initRoom with
    phase := .REVEAL,
    users := [("a", { name := "Swift Panda", color := "#F89A8A", answers := [] }),
              ("b", { name := "Cozy Fox", color := "#F9AE77", answers := [] })],
    revealRequests := [("a", ["b"]), ("b", ["a"])] }

/-- Four participants; the host starts the game, two signal intro-ready,
and one ready participant disconnects during INTRO. -/
def c5trace : List Event :=
  [.connect "a" "Swift Panda" "#F89A8A", .connect "b" "Cozy Fox" "#F9AE77",
   .connect "c" "Bold Owl" "#ECCB60", .connect "d" "Calm Wolf" "#BEC97E",
   .msg "a" (.configureLobby "(not yet) friends") 0,
   .msg "a" .startGame 0,
   .msg "b" .introReady 0,
   .msg "c" .introReady 0,
   .disconnect "c" 0]

/-- The INTRO-phase room reached by `c5trace`. -/
def c5pre : Room :=
  runEvents c5trace initRoom

/-- A REVEAL-phase room with two participants and no reveal edges or
chats yet. -/
def c1room : Room :=
  { initRoom with
    phase := .REVEAL,
    users := [("a", { name := "Swift Panda", color := "#F89A8A", answers := [] }),
              ("b", { name := "Cozy Fox", color := "#F9AE77", answers := [] })] }

/-- Reveal requests in both directions, with the first direction repeated. -/
def c1evs : List Event :=
  [.msg "a" (.revealRequest "b") 0, .msg "b" (.revealRequest "a") 1,
   .msg "a" (.revealRequest "b") 2]

/-- A room whose answer for question q is already stored for user a. -/
def c2room : Room :=
  { initRoom with
    phase := .ANSWERING,
    users := [("a", ⟨"Swift Panda", "#F89A8A", [("q", ⟨.choice "a1", 3, 0, 1⟩)]⟩)] }

/-- A REVEAL-phase room with an open chat session between a and b and
fresh rate-limit state. -/
def c6room : Room :=
  { initRoom with
    phase := .REVEAL,
    users := [("a", { name := "Swift Panda", color := "#F89A8A", answers := [] }),
              ("b", { name := "Cozy Fox", color := "#F9AE77", answers := [] })],
    activeChats := [("a-b", { p1 := "a", p2 := "b", startedAt := 0 })],
    chatMessageCounts := [("a-b", [])],
    chatMessageTimestamps := [("a-b", [])] }

/-- Eleven chat messages from one participant inside one 10-second
window. -/
def c6msgs : List (ℕ × String) :=
  [(100, "m1"), (101, "m2"), (102, "m3"), (103, "m4"), (104, "m5"), (105, "m6"),
   (106, "m7"), (107, "m8"), (108, "m9"), (109, "m10"), (110, "m11")]

/-- The chat-send events of a message batch. -/
def chatSendEvents (sender chatId : String) (msgs : List (ℕ × String)) : List Event :=
  msgs.map (fun m => Event.msg sender (.chatSend chatId m.2) m.1)

/-- The two questions of the claimed scoring scenario: a 4-option multiple
choice and a 6-position slider. -/
def c7questions : List Question :=
  [.multipleChoice "qc" "choice question"
     [{ id := "a1", text := "one" }, { id := "a2", text := "two" },
      { id := "a3", text := "three" }, { id := "a4", text := "four" }],
   .slider "qs" "slider question" 6 ["L", "", "", "", "", "R"]]

/-- First scenario participant: identical choice answer, slider at 0. -/
def c7userA : UserState :=
  ⟨"Swift Panda", "#F89A8A", [("qc", ⟨.choice "a2", 0, 0, 1⟩), ("qs", ⟨.slider 0, 0, 0, 1⟩)]⟩

/-- Second scenario participant: identical choice answer, slider at 5. -/
def c7userB : UserState :=
  ⟨"Cozy Fox", "#F9AE77", [("qc", ⟨.choice "a2", 0, 0, 2⟩), ("qs", ⟨.slider 5, 0, 0, 2⟩)]⟩

/-- A participant whose slider answer to the 6-position deck question
carries the validator-accepted value 100. -/
def c8userX : UserState :=
  ⟨"Swift Panda", "#F89A8A", [("focus_strengths_vs_weaknesses", ⟨.slider 100, 0, 0, 1⟩)]⟩

/-- A participant whose slider answer to the same question is 0. -/
def c8userY : UserState :=
  ⟨"Cozy Fox", "#F9AE77", [("focus_strengths_vs_weaknesses", ⟨.slider 0, 0, 0, 2⟩)]⟩

/-- The question list loaded from the static deck. -/
def c8questions : List Question :=
  ((getDeck "(not yet) friends").bind deckToQuestionsOpt).getD []

/-- One connection configures the lobby with a deck name that is valid as
a string but matches no deck. -/
def c9trace : List Event :=
  [.connect "a" "Swift Panda" "#F89A8A",
   .msg "a" (.configureLobby "no-such-deck") 0]

/-- A two-participant lobby configured by a, ready to start. -/
def c9lobby : Room :=
  runEvents
    [.connect "a" "Swift Panda" "#F89A8A", .connect "b" "Cozy Fox" "#F9AE77",
     .msg "a" (.configureLobby "(not yet) friends") 0]
    initRoom

/-- An ANSWERING-phase room with one registered participant holding no
answers, and a question set that does not contain question id zz. -/
def c10room : Room :=
  { initRoom with
    phase := .ANSWERING,
    users := [("a", { name := "Swift Panda", color := "#F89A8A", answers := [] })],
    questions := c7questions }

/-! ## Association-list and set lemmas -/

theorem mget_mset_self {α : Type} (m : List (String × α)) (k : String) (v : α) :
    mget (mset m k v) k = some v := by
  induction m with
  | nil => simp [mset, mget]
  | cons kv rest ih =>
    obtain ⟨k', w⟩ := kv
    by_cases h : k' = k
    · simp [mset, h, mget]
    · simp [mset, h, mget, ih]

theorem mget_mset_ne {α : Type} (m : List (String × α)) (k key : String) (v : α)
    (h : k ≠ key) : mget (mset m k v) key = mget m key := by
  induction m with
  | nil => simp [mset, mget, h]
  | cons kv rest ih =>
    obtain ⟨k', w⟩ := kv
    by_cases hk : k' = k
    · subst hk
      simp [mset, mget, h]
    · simp [mset, hk, mget, ih]

theorem mget_mset_isSome {α : Type} (m : List (String × α)) (k key : String) (v : α)
    (h : (mget m key).isSome = true) : (mget (mset m k v) key).isSome = true := by
  by_cases hk : k = key
  · subst hk
    simp [mget_mset_self]
  · rwa [mget_mset_ne m k key v hk]

theorem sadd_mem_self (s : List String) (x : String) : x ∈ sadd s x := by
  by_cases h : x ∈ s <;> simp [sadd, h]

theorem sadd_mem_of_mem (s : List String) (x y : String) (h : y ∈ s) : y ∈ sadd s x := by
  by_cases hx : x ∈ s <;> simp [sadd, hx, h]

theorem hasEdge_addEdge_self (g : List (String × List String)) (a b : String) :
    hasEdge (addEdge g a b) a b = true := by
  unfold hasEdge addEdge
  cases hg : mget g a with
  | none => simp [mget_mset_self, sadd_mem_self]
  | some ts => simp [mget_mset_self, sadd_mem_self]

theorem hasEdge_addEdge_ne (g : List (String × List String)) (a b x y : String)
    (h : x ≠ a) : hasEdge (addEdge g a b) x y = hasEdge g x y := by
  unfold hasEdge addEdge
  cases hg : mget g a with
  | none => rw [mget_mset_ne _ _ _ _ (fun he => h he.symm)]
  | some ts => rw [mget_mset_ne _ _ _ _ (fun he => h he.symm)]

theorem hasEdge_addEdge_mono (g : List (String × List String)) (a b x y : String)
    (h : hasEdge g x y = true) : hasEdge (addEdge g a b) x y = true := by
  by_cases hx : x = a
  · subst hx
    unfold hasEdge addEdge at *
    cases hg : mget g x with
    | none => simp [hg] at h
    | some ts =>
      simp only [hg, decide_eq_true_eq] at h
      simp [mget_mset_self, sadd_mem_of_mem _ _ _ h]
  · rwa [hasEdge_addEdge_ne g a b x y hx]

/-! ## Phase behaviour of the transition helpers -/

theorem transitionToReveal_phase (s : Room) :
    (transitionToReveal s).1.phase = if s.phase = .RESULTS then .REVEAL else s.phase := by
  unfold transitionToReveal
  split <;> simp_all

theorem broadcastReadyStatus_phase (s : Room) :
    (broadcastReadyStatus s).1.phase =
      if 0 < s.users.length ∧ 3 * s.users.length ≤ 4 * s.resultsReadyPlayers.length ∧
          s.phase = .RESULTS then .REVEAL else s.phase := by
  unfold broadcastReadyStatus
  split <;> rename_i h
  · simp [transitionToReveal_phase, h.2.2, h]
  · simp [h]

theorem broadcastReadyStatus_state_of_empty (s : Room) (h : s.resultsReadyPlayers = []) :
    (broadcastReadyStatus s).1 = s := by
  unfold broadcastReadyStatus
  split <;> rename_i hc
  · exfalso
    obtain ⟨h1, h2, -⟩ := hc
    rw [h] at h2
    simp only [List.length_nil] at h2
    omega
  · rfl

theorem transitionToAnswering_phase (now : ℕ) (s : Room) :
    (transitionToAnswering now s).1.phase = .ANSWERING := by
  simp only [transitionToAnswering]
  split <;> rfl

theorem broadcastIntroReadyStatus_phase (now : ℕ) (s : Room) :
    (broadcastIntroReadyStatus now s).1.phase =
      if 0 < s.users.length ∧ 3 * s.users.length ≤ 4 * s.introReadyPlayers.length ∧
          s.phase = .INTRO then .ANSWERING else s.phase := by
  unfold broadcastIntroReadyStatus
  split <;> rename_i h
  · simp [transitionToAnswering_phase, h]
  · simp [h]

theorem broadcastIntroReadyStatus_state_of_empty (now : ℕ) (s : Room)
    (h : s.introReadyPlayers = []) : (broadcastIntroReadyStatus now s).1 = s := by
  unfold broadcastIntroReadyStatus
  split <;> rename_i hc
  · exfalso
    obtain ⟨h1, h2, -⟩ := hc
    rw [h] at h2
    simp only [List.length_nil] at h2
    omega
  · rfl

theorem transitionToResults_state_eq (s : Room) (h : s.phase = .ANSWERING) :
    (transitionToResults s).1 = { s with phase := .RESULTS, resultsReadyPlayers := [] } := by
  unfold transitionToResults
  split <;> rename_i hc
  · exact absurd h hc
  · exact broadcastReadyStatus_state_of_empty _ rfl

theorem transitionToResults_phase (s : Room) :
    (transitionToResults s).1.phase = if s.phase = .ANSWERING then .RESULTS else s.phase := by
  by_cases h : s.phase = .ANSWERING
  · rw [transitionToResults_state_eq s h]
    simp [h]
  · unfold transitionToResults
    split <;> rename_i hc
    · simp [h]
    · exact absurd (not_not.mp hc) h

theorem advanceToNextQuestion_phase (now : ℕ) (s : Room) :
    (advanceToNextQuestion now s).1.phase =
      if s.questions.length ≤ s.currentQuestionIndex + 1 ∧ s.phase = .ANSWERING
      then .RESULTS else s.phase := by
  simp only [advanceToNextQuestion]
  by_cases hlen : s.questions.length ≤ s.currentQuestionIndex + 1
  · simp only [hlen, if_true, transitionToResults_phase]
    by_cases hp : s.phase = .ANSWERING <;> simp [hlen, hp]
  · simp only [hlen, if_false]
    cases hq : s.questions.get? (s.currentQuestionIndex + 1) <;> simp [hlen, hq]

/-! ## hostId behaviour of the handlers -/

theorem transitionToReveal_hostId (s : Room) :
    (transitionToReveal s).1.hostId = s.hostId := by
  unfold transitionToReveal
  split <;> rfl

theorem broadcastReadyStatus_hostId (s : Room) :
    (broadcastReadyStatus s).1.hostId = s.hostId := by
  simp only [broadcastReadyStatus]
  split
  · exact transitionToReveal_hostId s
  · rfl

theorem transitionToAnswering_hostId (now : ℕ) (s : Room) :
    (transitionToAnswering now s).1.hostId = s.hostId := by
  simp only [transitionToAnswering]
  split <;> rfl

theorem broadcastIntroReadyStatus_hostId (now : ℕ) (s : Room) :
    (broadcastIntroReadyStatus now s).1.hostId = s.hostId := by
  simp only [broadcastIntroReadyStatus]
  split
  · exact transitionToAnswering_hostId now s
  · rfl

theorem transitionToResults_hostId (s : Room) :
    (transitionToResults s).1.hostId = s.hostId := by
  simp only [transitionToResults]
  split
  · rfl
  · rw [broadcastReadyStatus_hostId]

theorem advanceToNextQuestion_hostId (now : ℕ) (s : Room) :
    (advanceToNextQuestion now s).1.hostId = s.hostId := by
  simp only [advanceToNextQuestion]
  split
  · rw [transitionToResults_hostId]
  · split <;> rfl

theorem handleConnect_hostId (cid name color : String) (s : Room) :
    (handleConnect cid name color s).1.hostId = s.hostId := by
  simp only [handleConnect]

theorem handleCursor_hostId (sender : String) (x y : ℚ) (s : Room) :
    (handleCursor sender x y s).1.hostId = s.hostId := by
  unfold handleCursor
  split <;> rfl

theorem handleAnswer_hostId (sender qid aid : String) (now : ℕ) (s : Room) :
    (handleAnswer sender qid aid now s).1.hostId = s.hostId := by
  simp only [handleAnswer]
  repeat' split
  all_goals simp [advanceToNextQuestion_hostId]

theorem handleSliderAnswer_hostId (sender qid : String) (v : ℚ) (now : ℕ) (s : Room) :
    (handleSliderAnswer sender qid v now s).1.hostId = s.hostId := by
  simp only [handleSliderAnswer]
  repeat' split
  all_goals simp [advanceToNextQuestion_hostId]

theorem handleStartGame_hostId (sender : String) (now : ℕ) (s : Room) :
    (handleStartGame sender now s).1.hostId = s.hostId := by
  simp only [handleStartGame]
  repeat' split
  all_goals simp [broadcastIntroReadyStatus_hostId, clearGameState]

theorem handleToReveal_hostId (s : Room) :
    (handleToReveal s).1.hostId = s.hostId := by
  simp only [handleToReveal]
  split
  · exact transitionToReveal_hostId s
  · rfl

theorem handlePlayerReady_hostId (sender : String) (s : Room) :
    (handlePlayerReady sender s).1.hostId = s.hostId := by
  simp only [handlePlayerReady]
  split
  · rw [broadcastReadyStatus_hostId]
  · rfl

theorem handleIntroReady_hostId (sender : String) (now : ℕ) (s : Room) :
    (handleIntroReady sender now s).1.hostId = s.hostId := by
  simp only [handleIntroReady]
  split
  · rw [broadcastIntroReadyStatus_hostId]
  · rfl

theorem handleNudge_hostId (sender targetId : String) (now : ℕ) (s : Room) :
    (handleNudge sender targetId now s).1.hostId = s.hostId := by
  simp only [handleNudge]
  repeat' split
  all_goals rfl

theorem handleRevealRequest_hostId (sender targetId : String) (now : ℕ) (s : Room) :
    (handleRevealRequest sender targetId now s).1.hostId = s.hostId := by
  simp only [handleRevealRequest]
  repeat' split
  all_goals simp [createChatSession]

theorem handleChatSend_hostId (sender chatId text : String) (now : ℕ) (s : Room) :
    (handleChatSend sender chatId text now s).1.hostId = s.hostId := by
  simp only [handleChatSend]
  repeat' split
  all_goals rfl

theorem handleChatClose_hostId (sender chatId : String) (s : Room) :
    (handleChatClose sender chatId s).1.hostId = s.hostId := by
  simp only [handleChatClose]
  repeat' split
  all_goals simp [closeChatSession]

theorem handleLeave_hostId (uid : String) (now : ℕ) (s : Room) :
    (handleLeave uid now s).1.hostId = s.hostId := by
  simp only [handleLeave]
  repeat' split
  all_goals simp [advanceToNextQuestion_hostId, broadcastReadyStatus_hostId]

theorem handleConfigureLobbyMsg_hostId (sender deck : String) (s : Room) :
    (handleConfigureLobbyMsg sender deck s).1.hostId =
      if validId deck = true ∧ s.phase = .LOBBY ∧ s.lobbyConfig = none
      then some sender else s.hostId := by
  simp only [handleConfigureLobbyMsg]
  repeat' split
  all_goals simp_all [clearGameState]

/-! ## Phase-step behaviour of the handlers -/

theorem phaseStep_refl (p : GamePhase) : PhaseStep p p := Or.inl rfl

theorem transitionToReveal_phaseStep (s : Room) :
    PhaseStep s.phase (transitionToReveal s).1.phase := by
  unfold PhaseStep
  rw [transitionToReveal_phase]
  split <;> simp_all

theorem broadcastReadyStatus_phaseStep (s : Room) :
    PhaseStep s.phase (broadcastReadyStatus s).1.phase := by
  unfold PhaseStep
  rw [broadcastReadyStatus_phase]
  split <;> simp_all

theorem broadcastIntroReadyStatus_phaseStep (now : ℕ) (s : Room) :
    PhaseStep s.phase (broadcastIntroReadyStatus now s).1.phase := by
  unfold PhaseStep
  rw [broadcastIntroReadyStatus_phase]
  split <;> simp_all

theorem transitionToResults_phaseStep (s : Room) :
    PhaseStep s.phase (transitionToResults s).1.phase := by
  unfold PhaseStep
  rw [transitionToResults_phase]
  split <;> simp_all

theorem advanceToNextQuestion_phaseStep (now : ℕ) (s : Room) :
    PhaseStep s.phase (advanceToNextQuestion now s).1.phase := by
  unfold PhaseStep
  rw [advanceToNextQuestion_phase]
  split <;> simp_all

theorem handleConnect_phase (cid name color : String) (s : Room) :
    (handleConnect cid name color s).1.phase = s.phase := by
  simp only [handleConnect]

theorem handleCursor_phase (sender : String) (x y : ℚ) (s : Room) :
    (handleCursor sender x y s).1.phase = s.phase := by
  unfold handleCursor
  split <;> rfl

theorem handleAnswer_phaseStep (sender qid aid : String) (now : ℕ) (s : Room) :
    PhaseStep s.phase (handleAnswer sender qid aid now s).1.phase := by
  simp only [handleAnswer]
  repeat' split
  all_goals first
    | exact phaseStep_refl _
    | exact advanceToNextQuestion_phaseStep now _

theorem handleSliderAnswer_phaseStep (sender qid : String) (v : ℚ) (now : ℕ) (s : Room) :
    PhaseStep s.phase (handleSliderAnswer sender qid v now s).1.phase := by
  simp only [handleSliderAnswer]
  repeat' split
  all_goals first
    | exact phaseStep_refl _
    | exact advanceToNextQuestion_phaseStep now _

theorem handleConfigureLobbyMsg_phase (sender deck : String) (s : Room) :
    (handleConfigureLobbyMsg sender deck s).1.phase = s.phase := by
  simp only [handleConfigureLobbyMsg]
  repeat' split
  all_goals simp [clearGameState]

theorem handleStartGame_launch (sender : String) (now : ℕ) (s : Room)
    (h1 : s.phase = .LOBBY) (h2 : s.hostId = some sender)
    (h3 : 2 ≤ s.users.length) (h4 : s.lobbyConfig.isSome = true) :
    (handleStartGame sender now s).1 =
      { clearGameState s with phase := .INTRO, introReadyPlayers := [] } := by
  have h4n : ¬ s.lobbyConfig.isNone = true := by
    cases hc : s.lobbyConfig <;> simp_all
  simp only [handleStartGame]
  rw [if_neg (by simp [h1]), if_neg (by simp [h2]), if_neg (by omega), if_neg h4n]
  exact broadcastIntroReadyStatus_state_of_empty now _ rfl

theorem handleStartGame_noop (sender : String) (now : ℕ) (s : Room)
    (h : ¬ (s.phase = .LOBBY ∧ s.hostId = some sender ∧ 2 ≤ s.users.length ∧
      s.lobbyConfig.isSome = true)) :
    handleStartGame sender now s = (s, []) := by
  simp only [handleStartGame]
  by_cases h1 : s.phase = .LOBBY
  swap
  · rw [if_pos h1]
  by_cases h2 : s.hostId = some sender
  swap
  · rw [if_neg (by simp [h1]), if_pos h2]
  by_cases h3 : 2 ≤ s.users.length
  swap
  · rw [if_neg (by simp [h1]), if_neg (by simp [h2]), if_pos (by omega)]
  by_cases h4 : s.lobbyConfig.isSome = true
  swap
  · rw [if_neg (by simp [h1]), if_neg (by simp [h2]), if_neg (by omega),
      if_pos (by cases hc : s.lobbyConfig <;> simp_all)]
  exact absurd ⟨h1, h2, h3, h4⟩ h

theorem handleStartGame_phase (sender : String) (now : ℕ) (s : Room) :
    (handleStartGame sender now s).1.phase =
      if s.phase = .LOBBY ∧ s.hostId = some sender ∧ 2 ≤ s.users.length ∧
          s.lobbyConfig.isSome = true then .INTRO else s.phase := by
  by_cases h : s.phase = .LOBBY ∧ s.hostId = some sender ∧ 2 ≤ s.users.length ∧
      s.lobbyConfig.isSome = true
  · rw [handleStartGame_launch sender now s h.1 h.2.1 h.2.2.1 h.2.2.2, if_pos h]
  · rw [handleStartGame_noop sender now s h, if_neg h]

theorem handleStartGame_phaseStep (sender : String) (now : ℕ) (s : Room) :
    PhaseStep s.phase (handleStartGame sender now s).1.phase := by
  unfold PhaseStep
  rw [handleStartGame_phase]
  split <;> simp_all

theorem handleToReveal_phaseStep (s : Room) :
    PhaseStep s.phase (handleToReveal s).1.phase := by
  simp only [handleToReveal]
  split
  · exact transitionToReveal_phaseStep s
  · exact phaseStep_refl _

theorem handlePlayerReady_phaseStep (sender : String) (s : Room) :
    PhaseStep s.phase (handlePlayerReady sender s).1.phase := by
  simp only [handlePlayerReady]
  split
  · exact broadcastReadyStatus_phaseStep _
  · exact phaseStep_refl _

theorem handleIntroReady_phaseStep (sender : String) (now : ℕ) (s : Room) :
    PhaseStep s.phase (handleIntroReady sender now s).1.phase := by
  simp only [handleIntroReady]
  split
  · exact broadcastIntroReadyStatus_phaseStep now _
  · exact phaseStep_refl _

theorem handleNudge_phase (sender targetId : String) (now : ℕ) (s : Room) :
    (handleNudge sender targetId now s).1.phase = s.phase := by
  simp only [handleNudge]
  repeat' split
  all_goals rfl

theorem handleRevealRequest_phase (sender targetId : String) (now : ℕ) (s : Room) :
    (handleRevealRequest sender targetId now s).1.phase = s.phase := by
  simp only [handleRevealRequest]
  repeat' split
  all_goals simp [createChatSession]

theorem handleChatSend_phase (sender chatId text : String) (now : ℕ) (s : Room) :
    (handleChatSend sender chatId text now s).1.phase = s.phase := by
  simp only [handleChatSend]
  repeat' split
  all_goals rfl

theorem handleChatClose_phase (sender chatId : String) (s : Room) :
    (handleChatClose sender chatId s).1.phase = s.phase := by
  simp only [handleChatClose]
  repeat' split
  all_goals simp [closeChatSession]

theorem leaveGate_phaseStep (now : ℕ) (s2 : Room) (p : GamePhase) (a b : List Out)
    (h : s2.phase = p ∨ (p = .RESULTS ∧ s2.phase = .REVEAL)) :
    PhaseStep p (if s2.phase = .ANSWERING ∧ checkAllAnsweredCurrentQuestion s2 = true
        then ((advanceToNextQuestion now s2).1, a) else (s2, b)).1.phase := by
  split <;> rename_i hc
  · rcases hc with ⟨hph, -⟩
    rcases h with h|⟨h1, h2⟩
    · simp only []
      rw [advanceToNextQuestion_phase, ← h]
      split <;> rename_i hcc
      · rcases hcc with ⟨-, hh⟩
        unfold PhaseStep
        simp [hh]
      · exact phaseStep_refl _
    · rw [h2] at hph
      exact absurd hph (by simp)
  · rcases h with h|⟨h1, h2⟩
    · rw [← h]
      exact phaseStep_refl _
    · simp only []
      rw [h1, h2]
      unfold PhaseStep
      simp
  
theorem handleLeave_phaseStep (uid : String) (now : ℕ) (s : Room) :
    PhaseStep s.phase (handleLeave uid now s).1.phase := by
  simp only [handleLeave]
  by_cases hin : uid ∈ s.resultsReadyPlayers ∧ s.phase = GamePhase.RESULTS
  · simp only [hin, and_self, if_true]
    refine leaveGate_phaseStep now _ _ _ _ ?_
    rw [broadcastReadyStatus_phase]
    split
    · exact Or.inr ⟨rfl, rfl⟩
    · exact Or.inl rfl
  · rw [if_neg hin]
    exact leaveGate_phaseStep now _ s.phase _ _ (Or.inl rfl)

theorem step_phaseStep (e : Event) (s : Room) : PhaseStep s.phase (step e s).1.phase := by
  cases e with
  | connect cid name color =>
    simp only [step, handleConnect_phase]
    exact phaseStep_refl _
  | disconnect uid now =>
    simp only [step]
    exact handleLeave_phaseStep uid now s
  | msg sender m now =>
    cases m with
    | cursor x y =>
      simp only [step, handleCursor_phase]
      exact phaseStep_refl _
    | answer q a =>
      simp only [step]
      exact handleAnswer_phaseStep _ _ _ _ _
    | sliderAnswer q v =>
      simp only [step]
      exact handleSliderAnswer_phaseStep _ _ _ _ _
    | configureLobby d =>
      simp only [step, handleConfigureLobbyMsg_phase]
      exact phaseStep_refl _
    | startGame =>
      simp only [step]
      exact handleStartGame_phaseStep _ _ _
    | toReveal =>
      simp only [step]
      exact handleToReveal_phaseStep _
    | playerReady =>
      simp only [step]
      exact handlePlayerReady_phaseStep _ _
    | introReady =>
      simp only [step]
      exact handleIntroReady_phaseStep _ _ _
    | nudge t =>
      simp only [step, handleNudge_phase]
      exact phaseStep_refl _
    | revealRequest t =>
      simp only [step, handleRevealRequest_phase]
      exact phaseStep_refl _
    | chatSend c txt =>
      simp only [step, handleChatSend_phase]
      exact phaseStep_refl _
    | chatClose c =>
      simp only [step, handleChatClose_phase]
      exact phaseStep_refl _

theorem destutter_phaseTraceAux_sublist (evs : List Event) : ∀ (s : Room),
    List.Sublist (List.destutter' (· ≠ ·) s.phase (phaseTraceAux evs s))
      (phaseChainFrom s.phase) := by
  induction evs with
  | nil =>
    intro s
    rw [phaseTraceAux, List.destutter']
    cases s.phase <;> simp [phaseChainFrom]
  | cons e rest ih =>
    intro s
    have hps := step_phaseStep e s
    rw [phaseTraceAux, List.destutter']
    by_cases heq : s.phase = (step e s).1.phase
    · rw [if_neg (by simpa using heq), heq]
      exact ih (step e s).1
    · rw [if_pos (by simpa using heq)]
      rcases hps with h|⟨h1, h2⟩|⟨h1, h2⟩|⟨h1, h2⟩|⟨h1, h2⟩
      · exact absurd h.symm heq
      all_goals (
        have hih := ih (step e s).1
        rw [h2] at hih
        rw [h1, h2]
        exact List.Sublist.cons₂ _ hih)

/-! ## Claim theorems -/

/-- Claim C4: within one game run, the observed sequence of distinct phase
values is a subsequence of LOBBY, INTRO, ANSWERING, RESULTS, REVEAL in
that order — no transition skips a state and none goes backward. -/
theorem c4_phase_never_skips (evs : List Event) :
    List.Sublist (List.destutter (· ≠ ·) (phaseTrace evs initRoom))
      [GamePhase.LOBBY, .INTRO, .ANSWERING, .RESULTS, .REVEAL] := by
  rw [phaseTrace, List.destutter_cons']
  exact destutter_phaseTraceAux_sublist evs initRoom

/-- Claim C2: a second answer (choice or slider) to an already-answered
question is a complete no-op — the state (stored record and ordinal
counter included) is unchanged and no message is emitted. -/
theorem c2_second_answer_noop (s : Room) (p questionId : String) (u : UserState)
    (r : AnswerWithMeta) (m : ClientMsg) (t : ℕ)
    (hm : (∃ aid, m = .answer questionId aid) ∨ (∃ v, m = .sliderAnswer questionId v))
    (hu : mget s.users p = some u)
    (ha : mget u.answers questionId = some r) :
    step (.msg p m t) s = (s, []) := by
  rcases hm with ⟨aid, rfl⟩|⟨v, rfl⟩
  · simp only [step, handleAnswer]
    split
    · rfl
    · split
      · rfl
      · rw [hu]
        simp [ha]
  · simp only [step, handleSliderAnswer]
    split
    · rfl
    · split
      · rfl
      · rw [hu]
        simp [ha]

/-- Witness for C2 at a concrete room: the duplicate answer leaves the
room untouched and emits nothing. -/
theorem c2_second_answer_noop_witness :
    step (.msg "a" (.answer "q" "a3") 9) c2room = (c2room, []) :=
  c2_second_answer_noop c2room "a" "q" ⟨"Swift Panda", "#F89A8A", [("q", ⟨.choice "a1", 3, 0, 1⟩)]⟩
    ⟨.choice "a1", 3, 0, 1⟩ (.answer "q" "a3") 9 (Or.inl ⟨"a3", rfl⟩) rfl rfl

/-- Counterexample to C9 as stated: a configure-lobby message with a
syntactically valid but unknown deck name sets `hostId` while leaving
`lobbyConfig` null. -/
theorem c9_host_invariant_cex :
    (runEvents c9trace initRoom).hostId = some "a" ∧
      (runEvents c9trace initRoom).lobbyConfig = none := by
  constructor <;> rfl

/-- Claim C9 (amended): `hostId`, when non-null, is the connection id
whose configure-lobby message was last accepted in an unconfigured LOBBY
(the deck load may still fail, leaving `lobbyConfig` null while `hostId`
is set), and only `hostId` can move the game out of LOBBY. -/
theorem c9_host_invariant_amended :
    (∀ (e : Event) (s : Room), (step e s).1.hostId ≠ s.hostId →
      ∃ p d t, e = .msg p (.configureLobby d) t ∧ validId d = true ∧
        s.phase = .LOBBY ∧ s.lobbyConfig = none ∧ (step e s).1.hostId = some p) ∧
    (∀ (s : Room) (p : String) (t : ℕ), s.phase = .LOBBY →
      (step (.msg p .startGame t) s).1.phase = .INTRO → s.hostId = some p) := by
  constructor
  · intro e s hne
    cases e with
    | connect cid name color =>
      rw [step, handleConnect_hostId] at hne
      exact absurd rfl hne
    | disconnect uid now =>
      rw [step, handleLeave_hostId] at hne
      exact absurd rfl hne
    | msg sender m now =>
      cases m with
      | cursor x y =>
        rw [step, handleCursor_hostId] at hne
        exact absurd rfl hne
      | answer q a =>
        rw [step, handleAnswer_hostId] at hne
        exact absurd rfl hne
      | sliderAnswer q v =>
        rw [step, handleSliderAnswer_hostId] at hne
        exact absurd rfl hne
      | configureLobby d =>
        rw [step, handleConfigureLobbyMsg_hostId] at hne
        rw [step, handleConfigureLobbyMsg_hostId]
        split at hne <;> rename_i hcond
        · exact ⟨sender, d, now, rfl, hcond.1, hcond.2.1, hcond.2.2, by rw [if_pos hcond]⟩
        · exact absurd rfl hne
      | startGame =>
        rw [step, handleStartGame_hostId] at hne
        exact absurd rfl hne
      | toReveal =>
        rw [step, handleToReveal_hostId] at hne
        exact absurd rfl hne
      | playerReady =>
        rw [step, handlePlayerReady_hostId] at hne
        exact absurd rfl hne
      | introReady =>
        rw [step, handleIntroReady_hostId] at hne
        exact absurd rfl hne
      | nudge tg =>
        rw [step, handleNudge_hostId] at hne
        exact absurd rfl hne
      | revealRequest tg =>
        rw [step, handleRevealRequest_hostId] at hne
        exact absurd rfl hne
      | chatSend c txt =>
        rw [step, handleChatSend_hostId] at hne
        exact absurd rfl hne
      | chatClose c =>
        rw [step, handleChatClose_hostId] at hne
        exact absurd rfl hne
  · intro s p t hlobby hintro
    rw [step, handleStartGame_phase] at hintro
    split at hintro <;> rename_i hcond
    · exact hcond.2.1
    · rw [hlobby] at hintro
      exact absurd hintro (by simp)

/-- Witness for the amended C9: configuring from a fresh room yields that
exact host assignment, and starting the configured lobby succeeds only
for the host a. -/
theorem c9_host_invariant_amended_witness :
    (∃ p d t, (Event.msg "a" (.configureLobby "no-such-deck") 0 : Event) =
        .msg p (.configureLobby d) t ∧ validId d = true ∧
        (runEvents [.connect "a" "Swift Panda" "#F89A8A"] initRoom).phase = .LOBBY ∧
        (runEvents [.connect "a" "Swift Panda" "#F89A8A"] initRoom).lobbyConfig = none ∧
        (step (.msg "a" (.configureLobby "no-such-deck") 0)
          (runEvents [.connect "a" "Swift Panda" "#F89A8A"] initRoom)).1.hostId = some p) ∧
      c9lobby.hostId = some "a" := by
  constructor
  · exact c9_host_invariant_amended.1 (.msg "a" (.configureLobby "no-such-deck") 0)
      (runEvents [.connect "a" "Swift Panda" "#F89A8A"] initRoom) (by decide)
  · exact c9_host_invariant_amended.2 c9lobby "a" 0 (by decide) (by decide)

/-- Counterexample to C5 as stated: after a ready participant disconnects
during INTRO, a third intro-ready signal fires the transition although
only 2 of the 3 connected participants have signalled readiness
(2/3 < 0.75). -/
theorem c5_intro_quorum_cex :
    c5pre.phase = .INTRO ∧
      (step (.msg "d" .introReady 0) c5pre).1.phase = .ANSWERING ∧
      4 * ((sadd c5pre.introReadyPlayers "d").filter (fun x => connected c5pre x)).length <
        3 * c5pre.users.length := by
  refine ⟨by decide, by decide, by decide⟩

/-- Claim C5 (amended): the INTRO → ANSWERING auto-transition is checked
only when an intro-ready signal arrives; it fires exactly when the stored
intro-ready set extended by the sender reaches 75% of the users map, where
that set may still contain participants who have since disconnected; a
disconnect during INTRO never triggers the transition. -/
theorem c5_intro_quorum_amended :
    (∀ (s : Room) (p : String) (t : ℕ), s.phase = .INTRO →
      ((step (.msg p .introReady t) s).1.phase = .ANSWERING ↔
        0 < s.users.length ∧
          3 * s.users.length ≤ 4 * (sadd s.introReadyPlayers p).length)) ∧
    (∀ (s : Room) (uid : String) (t : ℕ), s.phase = .INTRO →
      (step (.disconnect uid t) s).1.phase = .INTRO) := by
  constructor
  · intro s p t hph
    rw [step, handleIntroReady, if_pos hph, broadcastIntroReadyStatus_phase]
    constructor
    · intro hres
      split at hres <;> rename_i hcond
      · exact ⟨hcond.1, hcond.2.1⟩
      · rw [hph] at hres
        exact absurd hres (by simp)
    · intro hcond
      rw [if_pos ⟨hcond.1, hcond.2, hph⟩]
  · intro s uid t hph
    simp only [step, handleLeave, hph]
    simp

/-- Witness for the amended C5 at the concrete INTRO room of the
counterexample trace, plus a disconnect that leaves INTRO unchanged. -/
theorem c5_intro_quorum_amended_witness :
    (step (.msg "d" .introReady 0) c5pre).1.phase = .ANSWERING ∧
      (step (.disconnect "b" 0) c5pre).1.phase = .INTRO := by
  constructor
  · exact (c5_intro_quorum_amended.1 c5pre "d" 0 (by decide)).mpr (by decide)
  · exact c5_intro_quorum_amended.2 c5pre "b" 0 (by decide)

/-- Counterexample to C3 as stated: in a full run two mutually-revealing
participants open a chat, close it, and a repeated reveal request then
creates a second ChatSession for the pair — the idempotency guard does not
block re-creation because closing deleted the stored session. -/
theorem c3_reveal_after_close_cex :
    chatCreations c3trace initRoom "a-b" = 2 ∧
      hasChat (runEvents (c3trace.take 20) initRoom) "a-b" = false ∧
      hasChat (runEvents c3trace initRoom) "a-b" = true := by
  refine ⟨by decide, by decide, by decide⟩

/-- Claim C3 (amended): an explicit chat close leaves the reveal-request
edges untouched, but a subsequent reveal request between the
still-connected mutual pair re-creates a ChatSession — the idempotency
guard only blocks while a session is stored. -/
theorem c3_reveal_after_close_amended :
    (∀ (s : Room) (p chatId : String) (t : ℕ),
      (step (.msg p (.chatClose chatId) t) s).1.revealRequests = s.revealRequests) ∧
    (∀ (s : Room) (A B : String) (t : ℕ),
      validId B = true → s.phase = .REVEAL → A ≠ B →
      (mget s.users A).isSome = true → (mget s.users B).isSome = true →
      hasEdge s.revealRequests A B = true → hasEdge s.revealRequests B A = true →
      hasChat s (getChatId A B) = false →
      hasChat (step (.msg A (.revealRequest B) t) s).1 (getChatId A B) = true) := by
  constructor
  · intro s p chatId t
    simp only [step, handleChatClose]
    repeat' split
    all_goals simp [closeChatSession]
  · intro s A B t hvB hph hAB hA hB hEdgeAB hEdgeBA hNoChat
    obtain ⟨uA, huA⟩ := Option.isSome_iff_exists.mp hA
    obtain ⟨uB, huB⟩ := Option.isSome_iff_exists.mp hB
    have hmut : isMutualReveal
        { s with revealRequests := addEdge s.revealRequests A B } A B = true := by
      unfold isMutualReveal
      rw [Bool.and_eq_true]
      refine ⟨hasEdge_addEdge_self _ _ _, ?_⟩
      rw [hasEdge_addEdge_ne _ _ _ _ _ (Ne.symm hAB)]
      exact hEdgeBA
    unfold hasChat at hNoChat
    simp only [step, handleRevealRequest, huA, huB]
    rw [if_neg (by simp [hvB]), if_neg (by simp [hph])]
    simp only [hmut, if_true]
    rw [if_neg (by simp [hNoChat])]
    unfold hasChat createChatSession
    simp [mget_mset_self]

/-- Witness for the amended C3 at the concrete mutual-edges room: the
close keeps the edges and the repeated request re-opens the chat. -/
theorem c3_reveal_after_close_amended_witness :
    (step (.msg "a" (.chatClose "a-b") 0) c3room).1.revealRequests = c3room.revealRequests ∧
      hasChat (step (.msg "a" (.revealRequest "b") 7) c3room).1 (getChatId "a" "b") = true := by
  constructor
  · exact c3_reveal_after_close_amended.1 c3room "a" "a-b" 0
  · exact c3_reveal_after_close_amended.2 c3room "a" "b" 7 (by decide) (by decide)
      (by decide) (by decide) (by decide) (by decide) (by decide) (by decide)

/-! ## Users-map preservation -/

theorem transitionToReveal_users (s : Room) :
    (transitionToReveal s).1.users = s.users := by
  unfold transitionToReveal
  split <;> rfl

theorem broadcastReadyStatus_users (s : Room) :
    (broadcastReadyStatus s).1.users = s.users := by
  simp only [broadcastReadyStatus]
  split
  · exact transitionToReveal_users s
  · rfl

theorem transitionToResults_users (s : Room) :
    (transitionToResults s).1.users = s.users := by
  simp only [transitionToResults]
  split
  · rfl
  · rw [broadcastReadyStatus_users]

theorem advanceToNextQuestion_users (now : ℕ) (s : Room) :
    (advanceToNextQuestion now s).1.users = s.users := by
  simp only [advanceToNextQuestion]
  split
  · rw [transitionToResults_users]
  · split <;> rfl

/-- Claim C7: the compatibility score is the sum of the claimed
per-question contributions over jointly-answered questions divided by
their count, and 0 when no jointly-answered question exists, whenever
every joint answer pair has one of the claimed shapes. -/
theorem c7_score_formula (questions : List Question) (uA uB : UserState)
    (hty : ∀ j ∈ jointAnswers uA.answers uB.answers, WellTypedJoint questions j) :
    calculateCompatibility questions uA uB =
      if jointAnswers uA.answers uB.answers = [] then 0
      else ((jointAnswers uA.answers uB.answers).map (specContribution questions)).sum /
        ((jointAnswers uA.answers uB.answers).length : ℚ) := by
  have hcongr : ∀ j ∈ jointAnswers uA.answers uB.answers,
      answerContribution questions j.1 j.2.1 j.2.2 = specContribution questions j := by
    intro j hj
    rcases hty j hj with ⟨x, y, h1, h2⟩ | ⟨a, b, positions, h1, h2, hP, hP1⟩
    · simp [answerContribution, specContribution, h1, h2]
    · have hpos : 0 < positions - 1 := by omega
      simp [answerContribution, specContribution, h1, h2, hP, hpos]
  unfold calculateCompatibility
  cases hemp : uA.answers.isEmpty
  · simp only [Bool.false_eq_true, if_false]
    by_cases hj : jointAnswers uA.answers uB.answers = []
    · simp [hj]
    · have hlen : 0 < (jointAnswers uA.answers uB.answers).length :=
        List.length_pos.mpr hj
      rw [if_pos hlen, if_neg hj]
      have hmap : (jointAnswers uA.answers uB.answers).map
          (fun j => answerContribution questions j.1 j.2.1 j.2.2) =
          (jointAnswers uA.answers uB.answers).map (specContribution questions) :=
        List.map_eq_map_iff.mpr hcongr
      rw [hmap]
  · have : uA.answers = [] := List.isEmpty_iff.mp hemp
    have hj : jointAnswers uA.answers uB.answers = [] := by
      rw [this]
      rfl
    simp [hj]

/-- Witness for C7 at the claimed scenario: identical 4-option choice
contributes 1, a 6-position slider at positions 0 and 5 contributes 0, and
the combined 2-question score is 0.5. -/
theorem c7_score_formula_witness :
    specContribution c7questions ("qc", .choice "a2", .choice "a2") = 1 ∧
      specContribution c7questions ("qs", .slider 0, .slider 5) = 0 ∧
      calculateCompatibility c7questions c7userA c7userB = 1 / 2 := by
  have hqs : sliderPositionsOf c7questions "qs" = some 6 := rfl
  refine ⟨by norm_num [specContribution], ?_, ?_⟩
  · simp only [specContribution, hqs]
    norm_num
  · have hty : ∀ j ∈ jointAnswers c7userA.answers c7userB.answers,
        WellTypedJoint c7questions j := by
      intro j hj
      have hjoint : jointAnswers c7userA.answers c7userB.answers =
          [("qc", .choice "a2", .choice "a2"), ("qs", .slider 0, .slider 5)] := rfl
      rw [hjoint] at hj
      rcases List.mem_cons.mp hj with h | hj2
      · rw [h]
        exact Or.inl ⟨"a2", "a2", rfl, rfl⟩
      · rcases List.mem_cons.mp hj2 with h | hj3
        · rw [h]
          exact Or.inr ⟨0, 5, 6, rfl, rfl, hqs, by omega⟩
        · cases hj3
    rw [c7_score_formula c7questions c7userA c7userB hty]
    have hjoint : jointAnswers c7userA.answers c7userB.answers =
        [("qc", .choice "a2", .choice "a2"), ("qs", .slider 0, .slider 5)] := rfl
    rw [hjoint, if_neg (by simp)]
    simp only [specContribution, hqs, List.map_cons, List.map_nil, List.length_cons,
      List.length_nil]
    norm_num

/-- C8 at the failing input: slider answers 100 and 0 — both accepted by
the 0..100 validator — on the 6-position deck slider question yield a
compatibility score of -19, outside the documented [0,1] range. -/
theorem c8_score_range_cex :
    calculateCompatibility c8questions c8userX c8userY = -19 := by
  have hpos : sliderPositionsOf c8questions "focus_strengths_vs_weaknesses" = some 6 := rfl
  have hjoint : jointAnswers c8userX.answers c8userY.answers =
      [("focus_strengths_vs_weaknesses", .slider 100, .slider 0)] := rfl
  unfold calculateCompatibility
  rw [if_neg (by decide)]
  rw [hjoint]
  simp only [List.map_cons, List.map_nil, List.length_cons, List.length_nil,
    answerContribution, hpos]
  norm_num

/-- Claim C10: during ANSWERING, a first-time choice answer from a
registered participant is accepted and recorded for any well-formed
question id — with no requirement that the id belong to the loaded
question set or match the current index — and jointly-stored slider
answers under an id absent from the question set still enter the score
through the 0-100 fallback branch. -/
theorem c10_any_question_id_accepted :
    (∀ (s : Room) (p questionId answerId : String) (u : UserState) (t : ℕ),
      validId questionId = true → validId answerId = true →
      s.phase = .ANSWERING → mget s.users p = some u →
      mget u.answers questionId = none →
      ∃ u2, mget (step (.msg p (.answer questionId answerId) t) s).1.users p = some u2 ∧
        (∃ r, mget u2.answers questionId = some r ∧ r.value = .choice answerId) ∧
        Out.bcast (.playerAnswered u.name questionId) ∈
          (step (.msg p (.answer questionId answerId) t) s).2) ∧
    (∀ (questions : List Question) (questionId nA cA nB cB : String) (a b : ℚ)
        (mA mB : AnswerWithMeta),
      questions.find? (fun q => q.id = questionId) = none →
      mA.value = .slider a → mB.value = .slider b →
      calculateCompatibility questions ⟨nA, cA, [(questionId, mA)]⟩
        ⟨nB, cB, [(questionId, mB)]⟩ = 1 - |a - b| / 100) := by
  constructor
  · intro s p questionId answerId u t hvq hva hph hu ha
    simp only [step, handleAnswer, hu]
    rw [if_neg (by simp [hvq, hva]), if_neg (by simp [hph])]
    simp only [ha, Option.isSome_none, Bool.false_eq_true, if_false]
    split
    · rw [advanceToNextQuestion_users]
      refine ⟨_, by rw [mget_mset_self], ⟨_, by rw [mget_mset_self], rfl⟩, ?_⟩
      exact List.mem_append_left _ (List.mem_singleton.mpr rfl)
    · refine ⟨_, by rw [mget_mset_self], ⟨_, by rw [mget_mset_self], rfl⟩, ?_⟩
      exact List.mem_singleton.mpr rfl
  · intro questions questionId nA cA nB cB a b mA mB hfind hmA hmB
    have hpos : sliderPositionsOf questions questionId = none := by
      unfold sliderPositionsOf
      rw [hfind]
    have hjoint : jointAnswers [(questionId, mA)] [(questionId, mB)] =
        [(questionId, mA.value, mB.value)] := by
      simp [jointAnswers, mget]
    unfold calculateCompatibility
    rw [if_neg (by simp)]
    simp only [hjoint, List.map_cons, List.map_nil, List.length_cons, List.length_nil,
      hmA, hmB, answerContribution, hpos]
    norm_num

/-- Witness for C10: a choice answer under the id zz — absent from the
loaded question set — is recorded and broadcast, and two slider answers
under zz score through the 0-100 fallback. -/
theorem c10_any_question_id_accepted_witness :
    (∃ u2, mget (step (.msg "a" (.answer "zz" "a9") 4) c10room).1.users "a" = some u2 ∧
        (∃ r, mget u2.answers "zz" = some r ∧ r.value = .choice "a9") ∧
        Out.bcast (.playerAnswered "Swift Panda" "zz") ∈
          (step (.msg "a" (.answer "zz" "a9") 4) c10room).2) ∧
      calculateCompatibility c7questions ⟨"x", "c", [("zz", ⟨.slider 30, 0, 0, 1⟩)]⟩
        ⟨"y", "c", [("zz", ⟨.slider 80, 0, 0, 2⟩)]⟩ = 1 - |(30 : ℚ) - 80| / 100 := by
  constructor
  · exact c10_any_question_id_accepted.1 c10room "a" "zz" "a9"
      ⟨"Swift Panda", "#F89A8A", []⟩ 4 rfl rfl rfl rfl rfl
  · exact c10_any_question_id_accepted.2 c7questions "zz" "x" "c" "y" "c" 30 80
      ⟨.slider 30, 0, 0, 1⟩ ⟨.slider 80, 0, 0, 2⟩ rfl rfl rfl

/-! ## String-order symmetry of chat ids -/

theorem charsLe_total : ∀ (l1 l2 : List Char),
    charsLe l1 l2 = true ∨ charsLe l2 l1 = true := by
  intro l1
  induction l1 with
  | nil =>
    intro l2
    left
    cases l2 <;> rfl
  | cons c cs ih =>
    intro l2
    cases l2 with
    | nil => right; rfl
    | cons d ds =>
      by_cases h1 : c.toNat < d.toNat
      · left
        simp [charsLe, h1]
      · by_cases h2 : d.toNat < c.toNat
        · right
          simp [charsLe, h2]
        · rcases ih ds with h | h
          · left
            simp [charsLe, h1, h2, h]
          · right
            simp [charsLe, h1, h2, h]

theorem charsLe_antisymm : ∀ (l1 l2 : List Char),
    charsLe l1 l2 = true → charsLe l2 l1 = true → l1 = l2 := by
  intro l1
  induction l1 with
  | nil =>
    intro l2 h1 h2
    cases l2 with
    | nil => rfl
    | cons d ds => simp [charsLe] at h2
  | cons c cs ih =>
    intro l2 h1 h2
    cases l2 with
    | nil => simp [charsLe] at h1
    | cons d ds =>
      by_cases hcd : c.toNat < d.toNat
      · rw [charsLe, if_neg (by omega), if_pos hcd] at h2
        cases h2
      · by_cases hdc : d.toNat < c.toNat
        · rw [charsLe, if_neg hcd, if_pos hdc] at h1
          cases h1
        · have hc : c = d := by
            have : c.toNat = d.toNat := by omega
            unfold Char.toNat at this
            exact Char.ext (UInt32.toNat.inj this)
          subst hc
          rw [charsLe, if_neg hcd, if_neg hcd] at h1
          rw [charsLe, if_neg hcd, if_neg hcd] at h2
          rw [ih ds h1 h2]

theorem getChatId_comm (a b : String) : getChatId a b = getChatId b a := by
  unfold getChatId sortPair strLe
  by_cases h1 : charsLe a.data b.data = true
  · by_cases h2 : charsLe b.data a.data = true
    · have hd : a.data = b.data := charsLe_antisymm _ _ h1 h2
      have : a = b := by
        cases a
        cases b
        simp_all
      subst this
      rfl
    · simp [h1, h2]
  · have h2 : charsLe b.data a.data = true := (charsLe_total _ _).resolve_left h1
    simp [h1, h2]

/-! ## Reveal-request step lemmas -/

theorem handleRevealRequest_users (sender targetId : String) (now : ℕ) (s : Room) :
    (handleRevealRequest sender targetId now s).1.users = s.users := by
  simp only [handleRevealRequest]
  repeat' split
  all_goals simp [createChatSession]

theorem handleRevealRequest_hasChat_mono (sender targetId : String) (now : ℕ) (s : Room)
    (cid : String) (h : hasChat s cid = true) :
    hasChat (handleRevealRequest sender targetId now s).1 cid = true := by
  unfold hasChat at *
  simp only [handleRevealRequest]
  repeat' split
  all_goals first
    | exact h
    | (simp only [createChatSession]
       exact mget_mset_isSome _ _ _ _ h)

theorem handleRevealRequest_edge_mono (sender targetId x y : String) (now : ℕ) (s : Room)
    (h : hasEdge s.revealRequests x y = true) :
    hasEdge (handleRevealRequest sender targetId now s).1.revealRequests x y = true := by
  simp only [handleRevealRequest]
  repeat' split
  all_goals first
    | exact h
    | (simp only [createChatSession]
       exact hasEdge_addEdge_mono _ _ _ _ _ h)

theorem handleRevealRequest_adds_edge (sender targetId : String) (now : ℕ) (s : Room)
    (hv : validId targetId = true) (hph : s.phase = .REVEAL)
    (hs : (mget s.users sender).isSome = true)
    (ht : (mget s.users targetId).isSome = true) :
    hasEdge (handleRevealRequest sender targetId now s).1.revealRequests sender targetId
      = true := by
  obtain ⟨uS, huS⟩ := Option.isSome_iff_exists.mp hs
  obtain ⟨uT, huT⟩ := Option.isSome_iff_exists.mp ht
  simp only [handleRevealRequest, huS, huT]
  rw [if_neg (by simp [hv]), if_neg (by simp [hph])]
  repeat' split
  all_goals exact hasEdge_addEdge_self _ _ _

theorem handleRevealRequest_creates (sender targetId : String) (now : ℕ) (s : Room)
    (hv : validId targetId = true) (hph : s.phase = .REVEAL)
    (hne : sender ≠ targetId)
    (hs : (mget s.users sender).isSome = true)
    (ht : (mget s.users targetId).isSome = true)
    (hBA : hasEdge s.revealRequests targetId sender = true) :
    hasChat (handleRevealRequest sender targetId now s).1 (getChatId sender targetId)
      = true := by
  obtain ⟨uS, huS⟩ := Option.isSome_iff_exists.mp hs
  obtain ⟨uT, huT⟩ := Option.isSome_iff_exists.mp ht
  have hmut : isMutualReveal
      { s with revealRequests := addEdge s.revealRequests sender targetId } sender targetId
      = true := by
    unfold isMutualReveal
    rw [Bool.and_eq_true]
    refine ⟨hasEdge_addEdge_self _ _ _, ?_⟩
    rw [hasEdge_addEdge_ne _ _ _ _ _ (Ne.symm hne)]
    exact hBA
  simp only [handleRevealRequest, huS, huT]
  rw [if_neg (by simp [hv]), if_neg (by simp [hph])]
  simp only [hmut, if_true]
  split <;> rename_i hguard
  · exact hguard
  · unfold hasChat createChatSession
    simp [mget_mset_self]

/-! ## Reveal-run lemmas -/

theorem runEvents_cons (e : Event) (rest : List Event) (s : Room) :
    runEvents (e :: rest) s = runEvents rest (step e s).1 := by
  simp [runEvents, runOut]

theorem hasChat_runEvents_mono (cid : String) : ∀ (evs : List Event) (s : Room),
    (∀ e ∈ evs, ∀ s2 : Room, hasChat s2 cid = true → hasChat (step e s2).1 cid = true) →
    hasChat s cid = true → hasChat (runEvents evs s) cid = true := by
  intro evs
  induction evs with
  | nil =>
    intro s _ h
    exact h
  | cons e rest ih =>
    intro s hmono h
    rw [runEvents_cons]
    exact ih (step e s).1 (fun e2 he2 => hmono e2 (List.mem_cons_of_mem _ he2))
      (hmono e (List.mem_cons_self _ _) s h)

theorem chatCreations_of_mono (cid : String) : ∀ (evs : List Event) (s : Room),
    (∀ e ∈ evs, ∀ s2 : Room, hasChat s2 cid = true → hasChat (step e s2).1 cid = true) →
    chatCreations evs s cid =
      if hasChat s cid = false ∧ hasChat (runEvents evs s) cid = true then 1 else 0 := by
  intro evs
  induction evs with
  | nil =>
    intro s _
    rw [chatCreations]
    split <;> rename_i hc
    · exact absurd hc.2 (by simp [hc.1, runEvents, runOut])
    · rfl
  | cons e rest ih =>
    intro s hmono
    rw [chatCreations, runEvents_cons,
      ih (step e s).1 (fun e2 he2 => hmono e2 (List.mem_cons_of_mem _ he2))]
    by_cases h0 : hasChat s cid = true
    · have h1 : hasChat (step e s).1 cid = true := hmono e (List.mem_cons_self _ _) s h0
      rw [if_neg (by simp [h0]), if_neg (by simp [h1]), if_neg (by simp [h0])]
    · have h0f : hasChat s cid = false := by
        cases hx : hasChat s cid
        · rfl
        · exact absurd hx h0
      by_cases h1 : hasChat (step e s).1 cid = true
      · have hrun : hasChat (runEvents rest (step e s).1) cid = true :=
          hasChat_runEvents_mono cid rest (step e s).1
            (fun e2 he2 => hmono e2 (List.mem_cons_of_mem _ he2)) h1
        rw [if_pos ⟨h0f, h1⟩, if_neg (by simp [h1]), if_pos ⟨h0f, hrun⟩]
      · have h1f : hasChat (step e s).1 cid = false := by
          cases hx : hasChat (step e s).1 cid
          · rfl
          · exact absurd hx h1
        rw [if_neg (by simp [h1f])]
        simp [h0f, h1f]

theorem reveal_run_creates (A B : String) (hAB : A ≠ B) (hvA : validId A = true)
    (hvB : validId B = true) : ∀ (evs : List Event) (s : Room),
    (∀ e ∈ evs, RevealBetween A B e) →
    s.phase = .REVEAL → (mget s.users A).isSome = true → (mget s.users B).isSome = true →
    hasEdge s.revealRequests A B = true →
    (∃ t, Event.msg B (.revealRequest A) t ∈ evs) →
    hasChat (runEvents evs s) (getChatId A B) = true := by
  intro evs
  induction evs with
  | nil =>
    rintro s - - - - - ⟨t, ht⟩
    cases ht
  | cons e rest ih =>
    rintro s hform hph hA hB hEdge ⟨t, ht⟩
    rw [runEvents_cons]
    have hmono : ∀ e2 ∈ rest, ∀ s2 : Room, hasChat s2 (getChatId A B) = true →
        hasChat (step e2 s2).1 (getChatId A B) = true := by
      intro e2 he2 s2 h2
      rcases hform e2 (List.mem_cons_of_mem _ he2) with ⟨t2, rfl⟩ | ⟨t2, rfl⟩
      · exact handleRevealRequest_hasChat_mono _ _ _ _ _ h2
      · exact handleRevealRequest_hasChat_mono _ _ _ _ _ h2
    rcases hform e (List.mem_cons_self _ _) with ⟨t0, rfl⟩ | ⟨t0, rfl⟩
    · by_cases hchat :
          hasChat (step (.msg A (.revealRequest B) t0) s).1 (getChatId A B) = true
      · exact hasChat_runEvents_mono _ rest _ hmono hchat
      · have hBAmem : Event.msg B (.revealRequest A) t ∈ rest := by
          rcases List.mem_cons.mp ht with h | h
          · exfalso
            injection h with hs hm ht2
            exact hAB hs.symm
          · exact h
        refine ih (step (.msg A (.revealRequest B) t0) s).1
          (fun e2 he2 => hform e2 (List.mem_cons_of_mem _ he2)) ?_ ?_ ?_ ?_ ⟨t, hBAmem⟩
        · rw [show (step (.msg A (.revealRequest B) t0) s).1
              = (handleRevealRequest A B t0 s).1 from rfl, handleRevealRequest_phase]
          exact hph
        · rw [show (step (.msg A (.revealRequest B) t0) s).1
              = (handleRevealRequest A B t0 s).1 from rfl, handleRevealRequest_users]
          exact hA
        · rw [show (step (.msg A (.revealRequest B) t0) s).1
              = (handleRevealRequest A B t0 s).1 from rfl, handleRevealRequest_users]
          exact hB
        · exact handleRevealRequest_edge_mono _ _ _ _ _ _ hEdge
    · have hcreated :
          hasChat (step (.msg B (.revealRequest A) t0) s).1 (getChatId B A) = true :=
        handleRevealRequest_creates B A t0 s hvA hph (Ne.symm hAB) hB hA hEdge
      rw [getChatId_comm B A] at hcreated
      exact hasChat_runEvents_mono _ rest _ hmono hcreated

theorem reveal_run_final (A B : String) (hAB : A ≠ B) (hvA : validId A = true)
    (hvB : validId B = true) (evs : List Event) (s : Room)
    (hform : ∀ e ∈ evs, RevealBetween A B e)
    (hph : s.phase = .REVEAL)
    (hA : (mget s.users A).isSome = true) (hB : (mget s.users B).isSome = true)
    (hex1 : ∃ t, Event.msg A (.revealRequest B) t ∈ evs)
    (hex2 : ∃ t, Event.msg B (.revealRequest A) t ∈ evs) :
    hasChat (runEvents evs s) (getChatId A B) = true := by
  cases evs with
  | nil =>
    obtain ⟨t, ht⟩ := hex1
    cases ht
  | cons e rest =>
    rw [runEvents_cons]
    obtain ⟨t1, ht1⟩ := hex1
    obtain ⟨t2, ht2⟩ := hex2
    rcases hform e (List.mem_cons_self _ _) with ⟨t0, rfl⟩ | ⟨t0, rfl⟩
    · have hBAmem : Event.msg B (.revealRequest A) t2 ∈ rest := by
        rcases List.mem_cons.mp ht2 with h | h
        · exfalso
          injection h with hs hm ht3
          exact hAB hs.symm
        · exact h
      refine reveal_run_creates A B hAB hvA hvB rest _
        (fun e2 he2 => hform e2 (List.mem_cons_of_mem _ he2)) ?_ ?_ ?_ ?_ ⟨t2, hBAmem⟩
      · rw [show (step (.msg A (.revealRequest B) t0) s).1
            = (handleRevealRequest A B t0 s).1 from rfl, handleRevealRequest_phase]
        exact hph
      · rw [show (step (.msg A (.revealRequest B) t0) s).1
            = (handleRevealRequest A B t0 s).1 from rfl, handleRevealRequest_users]
        exact hA
      · rw [show (step (.msg A (.revealRequest B) t0) s).1
            = (handleRevealRequest A B t0 s).1 from rfl, handleRevealRequest_users]
        exact hB
      · exact handleRevealRequest_adds_edge A B t0 s hvB hph hA hB
    · have hABmem : Event.msg A (.revealRequest B) t1 ∈ rest := by
        rcases List.mem_cons.mp ht1 with h | h
        · exfalso
          injection h with hs hm ht3
          exact hAB hs
        · exact h
      rw [show getChatId A B = getChatId B A from getChatId_comm A B]
      refine reveal_run_creates B A (Ne.symm hAB) hvB hvA rest _
        (fun e2 he2 => Or.symm (hform e2 (List.mem_cons_of_mem _ he2))) ?_ ?_ ?_ ?_
        ⟨t1, hABmem⟩
      · rw [show (step (.msg B (.revealRequest A) t0) s).1
            = (handleRevealRequest B A t0 s).1 from rfl, handleRevealRequest_phase]
        exact hph
      · rw [show (step (.msg B (.revealRequest A) t0) s).1
            = (handleRevealRequest B A t0 s).1 from rfl, handleRevealRequest_users]
        exact hB
      · rw [show (step (.msg B (.revealRequest A) t0) s).1
            = (handleRevealRequest B A t0 s).1 from rfl, handleRevealRequest_users]
        exact hA
      · exact handleRevealRequest_adds_edge B A t0 s hvA hph hB hA

/-- Claim C1: in REVEAL, for a pair with no stored ChatSession, any
sequence of reveal requests between the two that contains at least one
request in each direction ends with a session stored for the pair and
creates it exactly once — repeated requests after creation are no-ops on
the chat store thanks to the idempotency guard. -/
theorem c1_mutual_reveal_idempotent (s : Room) (A B : String) (evs : List Event)
    (hAB : A ≠ B) (hvA : validId A = true) (hvB : validId B = true)
    (hph : s.phase = .REVEAL)
    (hA : (mget s.users A).isSome = true) (hB : (mget s.users B).isSome = true)
    (hNoChat : hasChat s (getChatId A B) = false)
    (hform : ∀ e ∈ evs, RevealBetween A B e)
    (hex1 : ∃ t, Event.msg A (.revealRequest B) t ∈ evs)
    (hex2 : ∃ t, Event.msg B (.revealRequest A) t ∈ evs) :
    hasChat (runEvents evs s) (getChatId A B) = true ∧
      chatCreations evs s (getChatId A B) = 1 := by
  have hmono : ∀ e ∈ evs, ∀ s2 : Room, hasChat s2 (getChatId A B) = true →
      hasChat (step e s2).1 (getChatId A B) = true := by
    intro e he s2 h2
    rcases hform e he with ⟨t2, rfl⟩ | ⟨t2, rfl⟩
    · exact handleRevealRequest_hasChat_mono _ _ _ _ _ h2
    · exact handleRevealRequest_hasChat_mono _ _ _ _ _ h2
  have hfinal := reveal_run_final A B hAB hvA hvB evs s hform hph hA hB hex1 hex2
  refine ⟨hfinal, ?_⟩
  rw [chatCreations_of_mono _ evs s hmono, if_pos ⟨hNoChat, hfinal⟩]

/-- Witness for C1: a repeated pair of mutual reveal requests on a fresh
REVEAL room creates exactly one session. -/
theorem c1_mutual_reveal_idempotent_witness :
    hasChat (runEvents c1evs c1room) (getChatId "a" "b") = true ∧
      chatCreations c1evs c1room (getChatId "a" "b") = 1 := by
  refine c1_mutual_reveal_idempotent c1room "a" "b" c1evs (by decide) (by decide)
    (by decide) (by decide) (by decide) (by decide) (by decide) ?_ ⟨0, by decide⟩
    ⟨1, by decide⟩
  intro e he
  simp only [c1evs, List.mem_cons, List.not_mem_nil, or_false] at he
  rcases he with h | h | h
  · rw [h]
    exact Or.inl ⟨0, rfl⟩
  · rw [h]
    exact Or.inr ⟨1, rfl⟩
  · rw [h]
    exact Or.inl ⟨2, rfl⟩

/-! ## Chat-send step lemmas -/

theorem handleChatSend_users (sender chatId text : String) (now : ℕ) (s : Room) :
    (handleChatSend sender chatId text now s).1.users = s.users := by
  simp only [handleChatSend]
  repeat' split
  all_goals rfl

theorem handleChatSend_activeChats (sender chatId text : String) (now : ℕ) (s : Room) :
    (handleChatSend sender chatId text now s).1.activeChats = s.activeChats := by
  simp only [handleChatSend]
  repeat' split
  all_goals rfl

theorem handleChatSend_drop (sender chatId text : String) (now : ℕ) (s : Room)
    (sess : ChatSession) (hsess : mget s.activeChats chatId = some sess)
    (hpart : sess.p1 = sender ∨ sess.p2 = sender)
    (hwin : now - storedLastTs s chatId sender < 10000)
    (hcnt : 10 ≤ chatCountOf s chatId sender) :
    handleChatSend sender chatId text now s = (s, []) := by
  unfold storedLastTs at hwin
  unfold chatCountOf at hcnt
  simp only [handleChatSend, hsess]
  split
  · rfl
  · rw [if_neg (by tauto), if_pos ⟨hwin, hcnt⟩]

theorem handleChatSend_deliver (sender chatId text : String) (now : ℕ) (s : Room)
    (q : String) (sess : ChatSession)
    (hvc : validChatId chatId = true) (hvt : validChatText text = true)
    (hsess : mget s.activeChats chatId = some sess)
    (hpq : (sess.p1 = sender ∧ sess.p2 = q) ∨ (sess.p1 = q ∧ sess.p2 = sender))
    (hnod : ¬ (now - storedLastTs s chatId sender < 10000 ∧
      10 ≤ chatCountOf s chatId sender))
    (hsu : (mget s.users sender).isSome = true)
    (hqu : (mget s.users q).isSome = true) :
    (handleChatSend sender chatId text now s).2 =
      [Out.send q (.chatMessage chatId sender (strTrim text) now)] ∧
    chatCountOf (handleChatSend sender chatId text now s).1 chatId sender =
      (if now - storedLastTs s chatId sender < 10000
       then chatCountOf s chatId sender + 1 else 1) ∧
    storedLastTs (handleChatSend sender chatId text now s).1 chatId sender = now := by
  have hpart : ¬ (sess.p1 ≠ sender ∧ sess.p2 ≠ sender) := by tauto
  have hpartner : (if sess.p1 = sender then sess.p2 else sess.p1) = q := by
    rcases hpq with ⟨h1, h2⟩ | ⟨h1, h2⟩
    · rw [if_pos h1]
      exact h2
    · by_cases hc : sess.p1 = sender
      · rw [if_pos hc]
        rw [hc] at h1
        rw [← h1]
        exact h2
      · rw [if_neg hc]
        exact h1
  obtain ⟨su, hsu2⟩ := Option.isSome_iff_exists.mp hsu
  have hconn : connected s q = true := by
    unfold connected
    exact hqu
  unfold storedLastTs at hnod ⊢
  unfold chatCountOf at hnod ⊢
  simp only [handleChatSend, hsess]
  rw [if_neg (by simp [hvc, hvt]), if_neg hpart, if_neg hnod]
  simp only [hpartner, hsu2, hconn]
  refine ⟨by trivial, ?_, ?_⟩
  · simp [mget_mset_self]
  · simp [mget_mset_self]

theorem runOut_append (l1 l2 : List Event) (s : Room) :
    runOut (l1 ++ l2) s =
      ((runOut l2 (runOut l1 s).1).1, (runOut l1 s).2 ++ (runOut l2 (runOut l1 s).1).2) := by
  induction l1 generalizing s with
  | nil => simp [runOut]
  | cons e rest ih =>
    simp only [List.cons_append, runOut, List.append_eq]
    rw [ih (step e s).1]
    simp [List.append_assoc]

theorem deliveriesTo_append (target : String) (o1 o2 : List Out) :
    deliveriesTo target (o1 ++ o2) = deliveriesTo target o1 + deliveriesTo target o2 := by
  unfold deliveriesTo
  rw [List.filter_append, List.length_append]

theorem chain_le_drop_middle (a b : ℕ) (l : List ℕ)
    (h : List.Chain' (fun x y => x ≤ y) (a :: b :: l)) :
    List.Chain' (fun x y => x ≤ y) (a :: l) := by
  rcases List.chain'_cons.mp h with ⟨hab, h2⟩
  cases l with
  | nil => simp
  | cons c l2 =>
    rcases List.chain'_cons.mp h2 with ⟨hbc, h3⟩
    exact List.chain'_cons.mpr ⟨le_trans hab hbc, h3⟩

theorem chat_run_deliveries (chatId p q : String) (sess : ChatSession)
    (hvc : validChatId chatId = true)
    (hpq : (sess.p1 = p ∧ sess.p2 = q) ∨ (sess.p1 = q ∧ sess.p2 = p)) :
    ∀ (msgs : List (ℕ × String)) (s : Room) (k prev w : ℕ),
    mget s.activeChats chatId = some sess →
    (mget s.users p).isSome = true → (mget s.users q).isSome = true →
    chatCountOf s chatId p = k → storedLastTs s chatId p = prev →
    1 ≤ k → w ≤ prev →
    (∀ m ∈ msgs, m.1 < w + 10000 ∧ validChatText m.2 = true) →
    List.Chain' (fun a b => a ≤ b) (prev :: msgs.map Prod.fst) →
    deliveriesTo q (runOut (chatSendEvents p chatId msgs) s).2 =
      min (10 - k) msgs.length := by
  intro msgs
  induction msgs with
  | nil =>
    intro s k prev w _ _ _ _ _ _ _ _ _
    simp [chatSendEvents, runOut, deliveriesTo]
  | cons m rest ih =>
    intro s k prev w hsess hpu hqu hcnt hlast hk hw hmems hchain
    have hm0 := hmems m (List.mem_cons_self _ _)
    have hwin : m.1 - prev < 10000 := by
      have h1 : m.1 < w + 10000 := hm0.1
      omega
    have hprevle : prev ≤ m.1 := by
      have := (List.chain'_cons.mp (by simpa using hchain)).1
      simpa using this
    have hstep0 : step (.msg p (.chatSend chatId m.2) m.1) s
        = handleChatSend p chatId m.2 m.1 s := rfl
    have hevs : chatSendEvents p chatId (m :: rest)
        = Event.msg p (.chatSend chatId m.2) m.1 :: chatSendEvents p chatId rest := rfl
    have hchainrest : List.Chain' (fun a b => a ≤ b) (m.1 :: rest.map Prod.fst) := by
      have := (List.chain'_cons.mp (by simpa using hchain)).2
      simpa using this
    by_cases hge : 10 ≤ k
    · have hdrop : handleChatSend p chatId m.2 m.1 s = (s, []) :=
        handleChatSend_drop p chatId m.2 m.1 s sess hsess
          (by rcases hpq with ⟨h1, -⟩ | ⟨-, h2⟩
              · exact Or.inl h1
              · exact Or.inr h2)
          (by rw [hlast]; exact hwin) (by rw [hcnt]; exact hge)
      rw [hevs]
      simp only [runOut, hstep0, hdrop, deliveriesTo_append]
      have htail := ih s k prev w hsess hpu hqu hcnt hlast hk hw
        (fun m2 hm2 => hmems m2 (List.mem_cons_of_mem _ hm2))
        (chain_le_drop_middle prev m.1 (rest.map Prod.fst) (by simpa using hchain))
      simp only [deliveriesTo] at htail ⊢
      rw [htail]
      have h10 : 10 - k = 0 := by omega
      simp [h10]
    · have hnod : ¬ (m.1 - storedLastTs s chatId p < 10000 ∧
          10 ≤ chatCountOf s chatId p) := by
        rw [hcnt]
        intro hcon
        exact hge hcon.2
      have hdel := handleChatSend_deliver p chatId m.2 m.1 s q sess hvc hm0.2 hsess hpq
        hnod hpu hqu
      have hcnt1 : chatCountOf (handleChatSend p chatId m.2 m.1 s).1 chatId p = k + 1 := by
        rw [hdel.2.1, hlast, hcnt, if_pos hwin]
      have hlast1 : storedLastTs (handleChatSend p chatId m.2 m.1 s).1 chatId p = m.1 :=
        hdel.2.2
      have hsess1 : mget (handleChatSend p chatId m.2 m.1 s).1.activeChats chatId
          = some sess := by
        rw [handleChatSend_activeChats]
        exact hsess
      have hpu1 : (mget (handleChatSend p chatId m.2 m.1 s).1.users p).isSome = true := by
        rw [handleChatSend_users]
        exact hpu
      have hqu1 : (mget (handleChatSend p chatId m.2 m.1 s).1.users q).isSome = true := by
        rw [handleChatSend_users]
        exact hqu
      have htail := ih (handleChatSend p chatId m.2 m.1 s).1 (k + 1) m.1 w hsess1 hpu1
        hqu1 hcnt1 hlast1 (by omega) (le_trans hw hprevle)
        (fun m2 hm2 => hmems m2 (List.mem_cons_of_mem _ hm2)) hchainrest
      rw [hevs]
      simp only [runOut, hstep0, deliveriesTo_append]
      rw [hdel.1] at *
      simp only [deliveriesTo] at htail ⊢
      rw [htail]
      have hone : (List.filter (fun o =>
          match o with
          | Out.send r (OutMsg.chatMessage _ _ _ _) => decide (r = q)
          | x => false)
          [Out.send q (OutMsg.chatMessage chatId p (strTrim m.2) m.1)]).length = 1 := by
        simp
      rw [hone]
      simp only [List.length_cons]
      rw [Nat.min_def, Nat.min_def]
      split <;> split <;> omega

theorem chatSendRun_pres (p chatId : String) : ∀ (msgs : List (ℕ × String)) (s : Room),
    (runEvents (chatSendEvents p chatId msgs) s).users = s.users ∧
    (runEvents (chatSendEvents p chatId msgs) s).activeChats = s.activeChats := by
  intro msgs
  induction msgs with
  | nil =>
    intro s
    exact ⟨rfl, rfl⟩
  | cons m rest ih =>
    intro s
    rw [show chatSendEvents p chatId (m :: rest)
        = Event.msg p (.chatSend chatId m.2) m.1 :: chatSendEvents p chatId rest from rfl,
      runEvents_cons]
    obtain ⟨h1, h2⟩ := ih (step (.msg p (.chatSend chatId m.2) m.1) s).1
    constructor
    · rw [h1, show (step (.msg p (.chatSend chatId m.2) m.1) s).1
          = (handleChatSend p chatId m.2 m.1 s).1 from rfl, handleChatSend_users]
    · rw [h2, show (step (.msg p (.chatSend chatId m.2) m.1) s).1
          = (handleChatSend p chatId m.2 m.1 s).1 from rfl, handleChatSend_activeChats]

/-- Claim C6: on an open chat session with fresh rate state, 11 messages
from one participant inside a single 10-second window deliver exactly 10
to the partner (one is dropped), and a 12th message sent more than 10
seconds after the stored last-message timestamp is delivered. -/
theorem c6_chat_rate_limit (s : Room) (chatId p q : String) (sess : ChatSession)
    (m0 : ℕ × String) (rest : List (ℕ × String)) (t12 : ℕ) (x12 : String)
    (hvc : validChatId chatId = true)
    (hsess : mget s.activeChats chatId = some sess)
    (hpq : (sess.p1 = p ∧ sess.p2 = q) ∨ (sess.p1 = q ∧ sess.p2 = p))
    (hpu : (mget s.users p).isSome = true) (hqu : (mget s.users q).isSome = true)
    (hfreshc : chatCountOf s chatId p = 0) (hfresht : storedLastTs s chatId p = 0)
    (hlen : rest.length = 10)
    (hmems : ∀ m ∈ m0 :: rest, m.1 < m0.1 + 10000 ∧ validChatText m.2 = true)
    (hchain : List.Chain' (fun a b => a ≤ b) ((m0 :: rest).map Prod.fst))
    (hx12 : validChatText x12 = true)
    (ht12 : storedLastTs (runEvents (chatSendEvents p chatId (m0 :: rest)) s) chatId p
      + 10000 < t12) :
    deliveriesTo q (runOut (chatSendEvents p chatId (m0 :: rest)) s).2 = 10 ∧
      deliveriesTo q
        (runOut (chatSendEvents p chatId ((m0 :: rest) ++ [(t12, x12)])) s).2 = 11 := by
  have hnod0 : ¬ (m0.1 - storedLastTs s chatId p < 10000 ∧
      10 ≤ chatCountOf s chatId p) := by
    rw [hfreshc]
    intro hcon
    omega
  have hdel0 := handleChatSend_deliver p chatId m0.2 m0.1 s q sess hvc
    (hmems m0 (List.mem_cons_self _ _)).2 hsess hpq hnod0 hpu hqu
  have hcnt1 : chatCountOf (handleChatSend p chatId m0.2 m0.1 s).1 chatId p = 1 := by
    rw [hdel0.2.1, hfreshc]
    split <;> rfl
  have hlast1 : storedLastTs (handleChatSend p chatId m0.2 m0.1 s).1 chatId p = m0.1 :=
    hdel0.2.2
  have hsess1 : mget (handleChatSend p chatId m0.2 m0.1 s).1.activeChats chatId
      = some sess := by
    rw [handleChatSend_activeChats]
    exact hsess
  have hpu1 : (mget (handleChatSend p chatId m0.2 m0.1 s).1.users p).isSome = true := by
    rw [handleChatSend_users]
    exact hpu
  have hqu1 : (mget (handleChatSend p chatId m0.2 m0.1 s).1.users q).isSome = true := by
    rw [handleChatSend_users]
    exact hqu
  have hchainrest : List.Chain' (fun a b => a ≤ b) (m0.1 :: rest.map Prod.fst) := by
    simpa using hchain
  have htail := chat_run_deliveries chatId p q sess hvc hpq rest
    (handleChatSend p chatId m0.2 m0.1 s).1 1 m0.1 m0.1 hsess1 hpu1 hqu1 hcnt1 hlast1
    (by omega) (le_refl _) (fun m2 hm2 => hmems m2 (List.mem_cons_of_mem _ hm2)) hchainrest
  have hevs0 : chatSendEvents p chatId (m0 :: rest)
      = Event.msg p (.chatSend chatId m0.2) m0.1 :: chatSendEvents p chatId rest := rfl
  have hstep0 : step (.msg p (.chatSend chatId m0.2) m0.1) s
      = handleChatSend p chatId m0.2 m0.1 s := rfl
  have heleven : deliveriesTo q (runOut (chatSendEvents p chatId (m0 :: rest)) s).2 = 10 := by
    rw [hevs0]
    simp only [runOut, hstep0, deliveriesTo_append]
    rw [hdel0.1, htail, hlen]
    simp [deliveriesTo]
  refine ⟨heleven, ?_⟩
  have hsplit : chatSendEvents p chatId ((m0 :: rest) ++ [(t12, x12)])
      = chatSendEvents p chatId (m0 :: rest)
        ++ chatSendEvents p chatId [(t12, x12)] := by
    unfold chatSendEvents
    rw [List.map_append]
  have hpres := chatSendRun_pres p chatId (m0 :: rest) s
  have hsess11 : mget (runEvents (chatSendEvents p chatId (m0 :: rest)) s).activeChats
      chatId = some sess := by
    rw [hpres.2]
    exact hsess
  have hpu11 : (mget (runEvents (chatSendEvents p chatId (m0 :: rest)) s).users p).isSome
      = true := by
    rw [hpres.1]
    exact hpu
  have hqu11 : (mget (runEvents (chatSendEvents p chatId (m0 :: rest)) s).users q).isSome
      = true := by
    rw [hpres.1]
    exact hqu
  have hnod12 : ¬ (t12 - storedLastTs (runEvents (chatSendEvents p chatId (m0 :: rest)) s)
      chatId p < 10000 ∧
      10 ≤ chatCountOf (runEvents (chatSendEvents p chatId (m0 :: rest)) s) chatId p) := by
    intro hcon
    omega
  have hdel12 := handleChatSend_deliver p chatId x12 t12
    (runEvents (chatSendEvents p chatId (m0 :: rest)) s) q sess hvc hx12 hsess11 hpq
    hnod12 hpu11 hqu11
  rw [hsplit, runOut_append, deliveriesTo_append, heleven]
  have hone : deliveriesTo q (runOut (chatSendEvents p chatId [(t12, x12)])
      (runOut (chatSendEvents p chatId (m0 :: rest)) s).1).2 = 1 := by
    show deliveriesTo q (runOut [Event.msg p (.chatSend chatId x12) t12]
      (runEvents (chatSendEvents p chatId (m0 :: rest)) s)).2 = 1
    simp only [runOut]
    rw [show step (.msg p (.chatSend chatId x12) t12)
        (runEvents (chatSendEvents p chatId (m0 :: rest)) s)
        = handleChatSend p chatId x12 t12
          (runEvents (chatSendEvents p chatId (m0 :: rest)) s) from rfl]
    rw [hdel12.1]
    simp [deliveriesTo]
  rw [hone]

/-- Witness for C6: eleven messages at times 100..110 on a fresh session
deliver 10, and a 12th at time 20000 (past the stored timestamp plus the
window) is delivered. -/
theorem c6_chat_rate_limit_witness :
    deliveriesTo "b" (runOut (chatSendEvents "a" "a-b" c6msgs) c6room).2 = 10 ∧
      deliveriesTo "b"
        (runOut (chatSendEvents "a" "a-b" (c6msgs ++ [(20000, "m12")])) c6room).2 = 11 :=
  c6_chat_rate_limit c6room "a-b" "a" "b" ⟨"a", "b", 0⟩ (100, "m1")
    [(101, "m2"), (102, "m3"), (103, "m4"), (104, "m5"), (105, "m6"), (106, "m7"),
     (107, "m8"), (108, "m9"), (109, "m10"), (110, "m11")] 20000 "m12"
    (by decide) (by decide) (Or.inl ⟨rfl, rfl⟩) (by decide) (by decide) (by decide)
    (by decide) (by decide) (by decide) (by simp [List.chain'_cons]) (by decide) (by decide)

end H2H
